import Mathlib

/-!
Verification of the pointer-gesture recognizer `useMouseEvents`
(`src/unnamed/part_000`, the current, touch-aware version of the hook).

The hook is embedded as an explicit event-loop state machine:

* `HookState` mirrors the React `useState` record of `useMouseEvents`
  (`mouseDown`, `mouseHold`, `mouseDrag`, `mouseDragHold`, `click`).
* The `useValuesUpdated` / `useValueUpdatedWithPrevious` effects of the hook
  run after every commit when their dependency changed between the previous
  and the current render.  `runRound` performs one such commit: it executes
  every effect whose dependency changed, collects their queued functional
  `setState` updates and applies them in order, producing the next render.
  `runRounds` iterates commits (the cascade always stabilises after a few
  rounds; extra rounds are provably the identity once no dependency changes).
* `setTimeout` / `clearTimeout` are a list of live timers with fresh ids;
  a ref holds the id of the most recently scheduled timer for its key.
  A timer firing is delivered as just another serialized input (`Input.fire`),
  valid at any time at or after the timer's deadline, which models the host
  event loop (timers may be delivered late, exactly the situation the
  `doubleClickDuration` window check in the source guards against).
* Emitted user callbacks are recorded in order in a `List Emit`; an emission
  is recorded only when the corresponding callback is configured, mirroring
  the `cb && cb(event)` guards of the source.

JS truthiness is modelled explicitly: absent config fields are `none`, and a
supplied field participates in the `(config && config.x) || default`
expression with JS truthiness (`0` and `false` are falsy).
-/

namespace MouseEvents

/-- Whether a native event originated from mouse or touch input
(`mousedown` vs `touchstart` in the source's `switch (event.type)`). -/
inductive EvKind
  | mouse
  | touch
deriving DecidableEq, Repr

/-- A normalized native event.  For touch events the coordinate fields stand
for the values `mergeTouchEventProperties` copies out of `changedTouches[0]`;
`touches` is `event.touches.length` at a `touchstart`. -/
structure NativeEvent where
  target : Nat
  clientX : Int
  clientY : Int
  pageX : Int
  pageY : Int
  kind : EvKind
  touches : Nat := 1
deriving DecidableEq, Repr

/-- Which optional user callbacks were supplied in `eventCallbacks`.
The callbacks themselves are opaque; we only track their presence, which is
what every `cb && cb(event)` guard in the source inspects. -/
structure EventCallbacks where
  onSingleClickCallback : Bool
  onDoubleClickCallback : Bool
  onMouseHoldCallback : Bool
  onMouseHoldEndCallback : Bool
  onDragCallback : Bool
  onDragStartCallback : Bool
  onDragEndCallback : Bool
  onDragHoldCallback : Bool
  onDragHoldEndCallback : Bool
  onMouseDownCallback : Bool
  onMouseUpCallback : Bool
deriving DecidableEq, Repr

/-- The `config` object: each recognized option may be absent (`none`). -/
structure Config where
  doubleClickDuration : Option Nat := none
  mouseHoldDuration : Option Nat := none
  dragHoldDuration : Option Nat := none
  preventDragIfHeld : Option Bool := none
  preventClickIfPosChange : Option Bool := none
deriving DecidableEq, Repr

/-- `(config && config.doubleClickDuration) || 250`: a supplied `0` is falsy
in JS, so it falls through to the default. -/
def resolveDoubleClickDuration : Option Config → Nat
  | none => 250
  | some c =>
    match c.doubleClickDuration with
    | none => 250
    | some n => if n = 0 then 250 else n

/-- `(config && config.mouseHoldDuration) || 750`. -/
def resolveMouseHoldDuration : Option Config → Nat
  | none => 750
  | some c =>
    match c.mouseHoldDuration with
    | none => 750
    | some n => if n = 0 then 750 else n

/-- `(config && config.dragHoldDuration) || 750`. -/
def resolveDragHoldDuration : Option Config → Nat
  | none => 750
  | some c =>
    match c.dragHoldDuration with
    | none => 750
    | some n => if n = 0 then 750 else n

/-- `(config && config.preventDragIfHeld) || false`. -/
def resolvePreventDragIfHeld : Option Config → Bool
  | none => false
  | some c =>
    match c.preventDragIfHeld with
    | none => false
    | some b => b

/-- `(config && config.preventClickIfPosChange) || (onDragEndCallback && true)`:
a supplied `false` is falsy, so the `onDragEndCallback`-derived default wins. -/
def resolvePreventClickIfPosChange (cfg : Option Config) (onDragEndCallback : Bool) : Bool :=
  match cfg with
  | none => onDragEndCallback
  | some c =>
    match c.preventClickIfPosChange with
    | none => onDragEndCallback
    | some b => b || onDragEndCallback

/-- `listenForMoveEvents`: whether any drag-related callback is registered. -/
def listenForMoveEvents (cb : EventCallbacks) : Bool :=
  cb.onDragStartCallback || cb.onDragCallback || cb.onDragEndCallback ||
    cb.onDragHoldCallback || cb.onDragHoldEndCallback

/-- `state.mouseDown`. -/
structure MouseDownState where
  isDown : Bool
  nativeEvent : Option NativeEvent
  time : Option Nat
deriving DecidableEq, Repr

/-- `state.mouseHold`. -/
structure MouseHoldState where
  isHeld : Bool
  nativeEvent : Option NativeEvent
deriving DecidableEq, Repr

/-- `state.mouseDrag`. -/
structure MouseDragState where
  isDragged : Bool
  nativeEvent : Option NativeEvent
  dragX : Option Int
  dragY : Option Int
deriving DecidableEq, Repr

/-- `state.mouseDragHold`. -/
structure MouseDragHoldState where
  isDragHeld : Bool
  nativeEvent : Option NativeEvent
deriving DecidableEq, Repr

/-- `state.click`. -/
structure ClickState where
  count : Nat
  time : Option Nat
  nativeEvent : Option NativeEvent
deriving DecidableEq, Repr

/-- The full React state object of `useMouseEvents`. -/
structure HookState where
  mouseDown : MouseDownState
  mouseHold : MouseHoldState
  mouseDrag : MouseDragState
  mouseDragHold : MouseDragHoldState
  click : ClickState
deriving DecidableEq, Repr

/-- The initial `useState` value. -/
def initState : HookState where
  mouseDown := { isDown := false, nativeEvent := none, time := none }
  mouseHold := { isHeld := false, nativeEvent := none }
  mouseDrag := { isDragged := false, nativeEvent := none, dragX := none, dragY := none }
  mouseDragHold := { isDragHeld := false, nativeEvent := none }
  click := { count := 0, time := none, nativeEvent := none }

/-- Which `setTimeout` body a timer runs (the three timer refs of the hook). -/
inductive TimerKey
  | mouseHold
  | doubleClick
  | dragHold
deriving DecidableEq, Repr

/-- One live `setTimeout`: fresh id, the body it will run, its deadline, and
the `nativeEvent` its closure captured. -/
structure Timer where
  id : Nat
  key : TimerKey
  deadline : Nat
  payload : Option NativeEvent
deriving DecidableEq, Repr

/-- The whole recognizer instance: committed React state, the previous
render's state (what `usePrevious` refs return at render time), live timers,
the three timeout refs, and which native listeners are installed. -/
structure Machine where
  hook : HookState
  prevHook : HookState
  timers : List Timer
  nextTimerId : Nat
  mouseHoldTimeoutRef : Option Nat
  doubleClickTimoutRef : Option Nat
  dragHoldTimeoutRef : Option Nat
  moveListener : Bool
  upListener : Bool
  leaveListener : Bool
  eventTypes : Option EvKind
  attached : Bool
deriving DecidableEq, Repr

/-- Fresh recognizer right after `attach` (listening on the target, `Idle`). -/
def initMachine : Machine where
  hook := initState
  prevHook := initState
  timers := []
  nextTimerId := 0
  mouseHoldTimeoutRef := none
  doubleClickTimoutRef := none
  dragHoldTimeoutRef := none
  moveListener := false
  upListener := false
  leaveListener := false
  eventTypes := none
  attached := true

/-- `clearTimeout(ref.current)`: cancels the live timer whose id the ref
holds; a `none` ref or an id that already fired is a no-op. -/
def clearTimer (ref : Option Nat) (ts : List Timer) : List Timer :=
  match ref with
  | none => ts
  | some i => ts.filter (fun t => t.id ≠ i)

/-- `setTimeout(body, delay)`: appends a live timer with a fresh id. -/
def addTimer (key : TimerKey) (deadline : Nat) (payload : Option NativeEvent)
    (m : Machine) : Machine × Nat :=
  ({ m with
      timers := m.timers ++ [{ id := m.nextTimerId, key := key, deadline := deadline,
                               payload := payload }]
      nextTimerId := m.nextTimerId + 1 },
    m.nextTimerId)

/-- The semantic callbacks the Dispatch Router can invoke. -/
inductive Emit
  | mouseDown
  | mouseUp
  | singleClick
  | doubleClick
  | mouseHold
  | mouseHoldEnd
  | dragStart
  | drag
  | dragEnd
  | dragHold
  | dragHoldEnd
deriving DecidableEq, Repr

/-- `cb && cb(event)`: record the emission only when the callback exists. -/
def emitIf (b : Bool) (e : Emit) (out : List Emit) : List Emit :=
  if b then out ++ [e] else out

/-- JS truthiness of `dragX` / `dragY` (`null` and `0` are falsy). -/
def truthyI : Option Int → Bool
  | none => false
  | some n => n != 0

/-- `prevMouseDown.nativeEvent.target === nativeEvent.target`. -/
def sameTarget : Option NativeEvent → Option NativeEvent → Bool
  | some pe, some e => pe.target = e.target
  | _, _ => false

/-- Accumulator threaded through one commit's effect list: the machine
(timers / refs / listeners may be mutated by effects), the queued functional
`setState` updates, and the emissions so far. -/
structure Acc where
  m : Machine
  upd : List (HookState → HookState)
  out : List Emit

/-- The `setState` queued by the mouse-up branch of the `isDown updated`
effect: reset hold/drag/drag-hold, bump the click count when the up
qualified as a click. -/
def upUpdater (s : HookState) (isClicked : Bool) : HookState → HookState :=
  fun st =>
    { st with
      mouseHold := { isHeld := false, nativeEvent := s.mouseDown.nativeEvent }
      mouseDrag := { isDragged := false, nativeEvent := s.mouseDown.nativeEvent,
                     dragX := none, dragY := none }
      mouseDragHold := { isDragHeld := false, nativeEvent := s.mouseDown.nativeEvent }
      click := { count := st.click.count + (if isClicked then 1 else 0),
                 time := s.mouseDown.time, nativeEvent := s.mouseDown.nativeEvent } }

/-- The `setState` that resets the click record after a single or double
click resolves. -/
def resetClickUpdater : HookState → HookState :=
  fun st => { st with click := { count := 0, time := none, nativeEvent := none } }

/-- The `setState` queued by the `drag positions updated` effect: leave the
drag-hold state. -/
def dragHoldResetUpdater (ev : Option NativeEvent) : HookState → HookState :=
  fun st => { st with mouseDragHold := { isDragHeld := false, nativeEvent := ev } }

/-- The `isDown updated` effect (`useValueUpdatedWithPrevious` on
`state.mouseDown.isDown`, with `state.mouseDown` as the tracked value).
`p` is the previous render's state, `s` the current one. -/
def isDownEffect (cb : EventCallbacks) (cfg : Option Config) (now : Nat)
    (p s : HookState) (a : Acc) : Acc :=
  if p.mouseDown.isDown = s.mouseDown.isDown then a
  else if s.mouseDown.isDown then
    -- mouse down: emit onMouseDown, install move/up listeners, and start the
    -- hold timer (plus the mouseleave guard) when a hold callback exists
    let out := emitIf cb.onMouseDownCallback Emit.mouseDown a.out
    let m := a.m
    let m := { m with
      moveListener := if listenForMoveEvents cb then true else m.moveListener
      upListener := true }
    let m :=
      if cb.onMouseHoldCallback then
        let sc := addTimer TimerKey.mouseHold (now + resolveMouseHoldDuration cfg)
          s.mouseDown.nativeEvent { m with leaveListener := true }
        { sc.1 with mouseHoldTimeoutRef := some sc.2 }
      else m
    { a with m := m, out := out }
  else
    -- mouse up: emit onMouseUp, decide whether this up is a qualifying click,
    -- reset hold/drag/drag-hold, bump the click count, drop the listeners
    let out := emitIf cb.onMouseUpCallback Emit.mouseUp a.out
    let clickedSameTarget := sameTarget p.mouseDown.nativeEvent s.mouseDown.nativeEvent
    let isClicked := !s.mouseHold.isHeld && !s.mouseDrag.isDragged && clickedSameTarget
    { a with
      m := { a.m with moveListener := false, upListener := false }
      upd := a.upd ++ [upUpdater s isClicked]
      out := out }

/-- The `click count update` effect (`useValueUpdatedWithPrevious` on
`state.click.count`, with `state.click` as the tracked value). -/
def clickEffect (cb : EventCallbacks) (cfg : Option Config) (now : Nat)
    (p s : HookState) (a : Acc) : Acc :=
  if p.click.count = s.click.count then a
  else
    -- cancel the potential mouse hold event
    let a :=
      if s.click.count > 0 then
        { a with m := { a.m with
            timers := clearTimer a.m.mouseHoldTimeoutRef a.m.timers } }
      else a
    if s.click.count = 1 then
      if cb.onDoubleClickCallback then
        -- wait out the double-click window before emitting the single click
        let sc := addTimer TimerKey.doubleClick (now + resolveDoubleClickDuration cfg)
          s.click.nativeEvent a.m
        { a with m := { sc.1 with doubleClickTimoutRef := some sc.2 } }
      else
        -- no double-click callback: emit the single click immediately
        { a with
          upd := a.upd ++ [resetClickUpdater]
          out := emitIf cb.onSingleClickCallback Emit.singleClick a.out }
    else if s.click.count = 2 then
      if s.click.time.getD 0 - p.click.time.getD 0 ≤ resolveDoubleClickDuration cfg then
        { a with
          m := { a.m with timers := clearTimer a.m.doubleClickTimoutRef a.m.timers }
          upd := a.upd ++ [resetClickUpdater]
          out := emitIf cb.onDoubleClickCallback Emit.doubleClick a.out }
      else a
    else a

/-- The `is held update` effect (`useValuesUpdated` on `state.mouseHold.isHeld`). -/
def isHeldEffect (cb : EventCallbacks) (cfg : Option Config)
    (p s : HookState) (a : Acc) : Acc :=
  if p.mouseHold.isHeld = s.mouseHold.isHeld then a
  else if s.mouseHold.isHeld then
    let a := { a with out := emitIf cb.onMouseHoldCallback Emit.mouseHold a.out }
    if resolvePreventDragIfHeld cfg then
      { a with m := { a.m with moveListener := false } }
    else a
  else
    { a with out := emitIf cb.onMouseHoldEndCallback Emit.mouseHoldEnd a.out }

/-- The `isDragged updated` effect (`useValuesUpdated` on
`state.mouseDrag.isDragged`). -/
def isDraggedEffect (cb : EventCallbacks) (p s : HookState) (a : Acc) : Acc :=
  if p.mouseDrag.isDragged = s.mouseDrag.isDragged then a
  else if s.mouseDrag.isDragged then
    { a with
      m := { a.m with timers := clearTimer a.m.mouseHoldTimeoutRef a.m.timers }
      out := emitIf cb.onDragStartCallback Emit.dragStart a.out }
  else
    { a with out := emitIf cb.onDragEndCallback Emit.dragEnd a.out }

/-- The `drag positions updated` effect (`useValuesUpdated` on
`state.mouseDrag.dragX` and `state.mouseDrag.dragY`). -/
def dragXYEffect (cb : EventCallbacks) (cfg : Option Config) (now : Nat)
    (p s : HookState) (a : Acc) : Acc :=
  if p.mouseDrag.dragX = s.mouseDrag.dragX ∧ p.mouseDrag.dragY = s.mouseDrag.dragY then a
  else
    -- reset drag hold
    let a := { a with
      m := { a.m with timers := clearTimer a.m.dragHoldTimeoutRef a.m.timers }
      upd := a.upd ++ [dragHoldResetUpdater s.mouseDrag.nativeEvent] }
    if truthyI s.mouseDrag.dragX || truthyI s.mouseDrag.dragY then
      let out := emitIf cb.onDragCallback Emit.drag a.out
      let sc := addTimer TimerKey.dragHold (now + resolveDragHoldDuration cfg)
        s.mouseDrag.nativeEvent a.m
      { a with m := { sc.1 with dragHoldTimeoutRef := some sc.2 }, out := out }
    else a

/-- The `mouse drag hold updated` effect (`useValuesUpdated` on
`state.mouseDragHold.isDragHeld`). -/
def isDragHeldEffect (cb : EventCallbacks) (p s : HookState) (a : Acc) : Acc :=
  if p.mouseDragHold.isDragHeld = s.mouseDragHold.isDragHeld then a
  else if s.mouseDragHold.isDragHeld then
    { a with out := emitIf cb.onDragHoldCallback Emit.dragHold a.out }
  else
    { a with out := emitIf cb.onDragHoldEndCallback Emit.dragHoldEnd a.out }

/-- Apply the six effects of the hook in declaration order to an accumulator. -/
def roundAcc (cb : EventCallbacks) (cfg : Option Config) (now : Nat)
    (p s : HookState) (a : Acc) : Acc :=
  isDragHeldEffect cb p s
    (dragXYEffect cb cfg now p s
      (isDraggedEffect cb p s
        (isHeldEffect cb cfg p s
          (clickEffect cb cfg now p s
            (isDownEffect cb cfg now p s a)))))

/-- One commit: run every effect whose dependency changed since the previous
render (in hook declaration order), then apply the queued `setState` updates
in order to obtain the next render's state. -/
def runRound (cb : EventCallbacks) (cfg : Option Config) (now : Nat)
    (m : Machine) : Machine × List Emit :=
  let a := roundAcc cb cfg now m.prevHook m.hook { m := m, upd := [], out := [] }
  ({ a.m with prevHook := m.hook, hook := a.upd.foldl (fun st f => f st) m.hook }, a.out)

/-- Iterate commits.  Six rounds are always enough for this hook (the longest
chain is an up event: handler commit, click/hold/drag effects, click reset,
quiescence); once no dependency changes a round is the identity. -/
def runRounds (cb : EventCallbacks) (cfg : Option Config) (now : Nat) :
    Nat → Machine → Machine × List Emit
  | 0, m => (m, [])
  | n + 1, m =>
    let r := runRound cb cfg now m
    let rest := runRounds cb cfg now n r.1
    (rest.1, r.2 ++ rest.2)

/-- A handler's own `setState`: commits a new render (the previous render's
values move into `prevHook`). -/
def commitState (f : HookState → HookState) (m : Machine) : Machine :=
  { m with prevHook := m.hook, hook := f m.hook }

/-- The serialized inputs the host delivers: normalized native events and
timer firings. -/
inductive Input
  | down (e : NativeEvent)
  | move (e : NativeEvent)
  | up (e : NativeEvent)
  | leave (e : NativeEvent)
  | fire (id : Nat)
deriving DecidableEq, Repr

/-- Process one input at host time `now`, returning the machine after the
synchronous commit cascade, together with the callbacks emitted (in order).

* `down` runs only while attached (`target.onmousedown`); a `touchstart`
  carrying more than one touch point returns before any `setState`.
* `move` / `up` / `leave` run only while their document/target listener is
  installed.
* `fire id` delivers a live timer's body; the timer is consumed. -/
def stepInput (cb : EventCallbacks) (cfg : Option Config) (now : Nat)
    (i : Input) (m : Machine) : Machine × List Emit :=
  match i with
  | Input.down e =>
    if m.attached then
      let m1 := { m with eventTypes := some e.kind }
      if e.kind = EvKind.touch ∧ 1 < e.touches then (m1, [])
      else
        runRounds cb cfg now 6 (commitState (fun st =>
          { st with mouseDown := { isDown := true, nativeEvent := some e,
                                   time := some now } }) m1)
    else (m, [])
  | Input.move e =>
    if m.moveListener then
      runRounds cb cfg now 6 (commitState (fun st =>
        { st with mouseDrag := { isDragged := true, nativeEvent := some e,
                                 dragX := some e.clientX, dragY := some e.clientY } }) m)
    else (m, [])
  | Input.up e =>
    if m.upListener then
      runRounds cb cfg now 6 (commitState (fun st =>
        { st with mouseDown := { isDown := false, nativeEvent := some e,
                                 time := some now } }) m)
    else (m, [])
  | Input.leave _ =>
    if m.leaveListener then
      ({ m with timers := clearTimer m.mouseHoldTimeoutRef m.timers,
                leaveListener := false }, [])
    else (m, [])
  | Input.fire id =>
    match m.timers.find? (fun t => t.id = id) with
    | none => (m, [])
    | some t =>
      let m1 := { m with timers := m.timers.filter (fun tm => tm.id ≠ id) }
      match t.key with
      | TimerKey.mouseHold =>
        runRounds cb cfg now 6 (commitState (fun st =>
          { st with mouseHold := { isHeld := true, nativeEvent := t.payload } })
          { m1 with leaveListener := false })
      | TimerKey.doubleClick =>
        let r := runRounds cb cfg now 6 (commitState (fun st =>
          { st with click := { count := 0, time := none, nativeEvent := none } }) m1)
        (r.1, emitIf cb.onSingleClickCallback Emit.singleClick [] ++ r.2)
      | TimerKey.dragHold =>
        runRounds cb cfg now 6 (commitState (fun st =>
          { st with mouseDragHold := { isDragHeld := true, nativeEvent := t.payload } }) m1)

/-- Whether input `i` may be delivered at time `t`: a timer firing must name a
live timer whose deadline has passed (the host may deliver it late). -/
def validInput (t : Nat) (i : Input) (m : Machine) : Bool :=
  match i with
  | Input.fire id =>
    match m.timers.find? (fun tm => tm.id = id) with
    | some tm => tm.deadline ≤ t
    | none => false
  | _ => true

/-- Run a timed input trace. -/
def runTrace (cb : EventCallbacks) (cfg : Option Config) (m : Machine) :
    List (Nat × Input) → Machine × List Emit
  | [] => (m, [])
  | (t, i) :: rest =>
    let r := stepInput cb cfg t i m
    let rr := runTrace cb cfg r.1 rest
    (rr.1, r.2 ++ rr.2)

/-- A trace is valid from time `t0` and machine `m` when its timestamps are
nondecreasing and every timer firing is a live timer past its deadline. -/
def validFrom (cb : EventCallbacks) (cfg : Option Config) (t0 : Nat) (m : Machine) :
    List (Nat × Input) → Bool
  | [] => true
  | (t, i) :: rest =>
    t0 ≤ t && validInput t i m &&
      validFrom cb cfg t (stepInput cb cfg t i m).1 rest

/-- Machines reachable from a fresh attached recognizer by valid inputs,
together with the time of the last delivered input. -/
inductive Reachable (cb : EventCallbacks) (cfg : Option Config) : Nat → Machine → Prop
  | init : Reachable cb cfg 0 initMachine
  | step {t m t' i} : Reachable cb cfg t m → t ≤ t' → validInput t' i m = true →
      Reachable cb cfg t' (stepInput cb cfg t' i m).1

/-! ### Quiescence: once no dependency changed, a commit is the identity -/

theorem runRound_quiescent (cb : EventCallbacks) (cfg : Option Config) (now : Nat)
    (m : Machine) (h : m.prevHook = m.hook) : runRound cb cfg now m = (m, []) := by
  cases m with
  | mk hook prevHook timers nid mr dr gr ml ul ll et att =>
    simp only [Machine.mk.injEq] at h
    subst h
    simp [runRound, roundAcc, isDownEffect, clickEffect, isHeldEffect, isDraggedEffect,
      dragXYEffect, isDragHeldEffect]

theorem runRounds_quiescent (cb : EventCallbacks) (cfg : Option Config) (now : Nat)
    (n : Nat) (m : Machine) (h : m.prevHook = m.hook) :
    runRounds cb cfg now n m = (m, []) := by
  induction n with
  | zero => simp [runRounds]
  | succ k ih => simp [runRounds, runRound_quiescent cb cfg now m h, ih]

/-! ### Structural lemmas for the commit cascade

The cascade analysis rests on small per-effect facts: which `setState`
updaters an effect can queue, and how an effect changes the timer list and
the `dragHold` ref.  They combine into per-round facts and then into the
reachability invariant used for the Held/Dragging/DragHeld claims. -/

/-- Every timer-list change of an effect other than `dragXYEffect` leaves
drag-hold timers untouched: any drag-hold timer afterwards was live before. -/
def DragShrink (m2 m1 : Machine) : Prop :=
  ∀ tm ∈ m2.timers, tm.key = TimerKey.dragHold → tm ∈ m1.timers

/-- Every live drag-hold timer is the one the `dragHold` ref points to. -/
def TimerInvA (m : Machine) : Prop :=
  ∀ tm ∈ m.timers, tm.key = TimerKey.dragHold → m.dragHoldTimeoutRef = some tm.id

/-- A truthy drag position implies the dragging flag (`onMouseMove` sets both
together; the up updater clears both together). -/
def HOk (st : HookState) : Prop :=
  (truthyI st.mouseDrag.dragX || truthyI st.mouseDrag.dragY) = true →
    st.mouseDrag.isDragged = true

/-- Dragging implies recorded drag positions. -/
def D2Ok (st : HookState) : Prop :=
  st.mouseDrag.isDragged = true →
    st.mouseDrag.dragX.isSome = true ∧ st.mouseDrag.dragY.isSome = true

/-- Some drag-hold timer is pending. -/
def liveDragHold (m : Machine) : Prop :=
  ∃ tm ∈ m.timers, tm.key = TimerKey.dragHold

/-- Mid-cascade drag-hold soundness: a pending drag-hold timer means the
state is dragging, or the `drag positions updated` effect is about to run
(its dependency changed) and will cancel the timer. -/
def LP (m : Machine) : Prop :=
  liveDragHold m →
    (m.hook.mouseDrag.isDragged = true ∨
      ¬(m.prevHook.mouseDrag.dragX = m.hook.mouseDrag.dragX ∧
        m.prevHook.mouseDrag.dragY = m.hook.mouseDrag.dragY))

/-- Boundary drag-hold soundness: a pending drag-hold timer means the state
is dragging. -/
def StrongL (m : Machine) : Prop :=
  liveDragHold m → m.hook.mouseDrag.isDragged = true

/-- The reachability invariant for the drag-hold claims. -/
def InvB (m : Machine) : Prop :=
  TimerInvA m ∧ HOk m.hook ∧ D2Ok m.hook ∧ StrongL m

theorem timerInvA_of_shrink {m2 m1 : Machine} (h1 : DragShrink m2 m1)
    (h2 : m2.dragHoldTimeoutRef = m1.dragHoldTimeoutRef) (hA : TimerInvA m1) :
    TimerInvA m2 := by
  intro tm hmem hkey
  rw [h2]
  exact hA tm (h1 tm hmem hkey) hkey

/-! Per-updater facts. -/

theorem upUpdater_mouseDown (s : HookState) (c : Bool) (st : HookState) :
    (upUpdater s c st).mouseDown = st.mouseDown := rfl

theorem upUpdater_dragShape (s : HookState) (c : Bool) (st : HookState) :
    (upUpdater s c st).mouseDrag.isDragged = false ∧
    (upUpdater s c st).mouseDrag.dragX = none ∧
    (upUpdater s c st).mouseDrag.dragY = none := ⟨rfl, rfl, rfl⟩

theorem upUpdater_dragHeld (s : HookState) (c : Bool) (st : HookState) :
    (upUpdater s c st).mouseDragHold.isDragHeld = false := rfl

theorem resetClickUpdater_mouseDown (st : HookState) :
    (resetClickUpdater st).mouseDown = st.mouseDown := rfl

theorem resetClickUpdater_mouseDrag (st : HookState) :
    (resetClickUpdater st).mouseDrag = st.mouseDrag := rfl

theorem resetClickUpdater_mouseDragHold (st : HookState) :
    (resetClickUpdater st).mouseDragHold = st.mouseDragHold := rfl

theorem dragHoldResetUpdater_mouseDown (ev : Option NativeEvent) (st : HookState) :
    (dragHoldResetUpdater ev st).mouseDown = st.mouseDown := rfl

theorem dragHoldResetUpdater_mouseDrag (ev : Option NativeEvent) (st : HookState) :
    (dragHoldResetUpdater ev st).mouseDrag = st.mouseDrag := rfl

theorem dragHoldResetUpdater_dragHeld (ev : Option NativeEvent) (st : HookState) :
    (dragHoldResetUpdater ev st).mouseDragHold.isDragHeld = false := rfl

/-- An updater one of the effects may queue. -/
def GoodF (s : HookState) (base : List (HookState → HookState))
    (f : HookState → HookState) : Prop :=
  f ∈ base ∨ (∃ c, f = upUpdater s c) ∨ f = resetClickUpdater ∨
    ∃ ev, f = dragHoldResetUpdater ev

/-- An updater queued while the `isDown` dependency did not change. -/
def GoodFNoUp (base : List (HookState → HookState))
    (f : HookState → HookState) : Prop :=
  f ∈ base ∨ f = resetClickUpdater ∨ ∃ ev, f = dragHoldResetUpdater ev

/-! Per-effect characterizations of the queued updaters. -/

theorem isDownEffect_upd (cb : EventCallbacks) (cfg : Option Config) (now : Nat)
    (p s : HookState) (a : Acc) :
    (isDownEffect cb cfg now p s a).upd = a.upd ∨
    ∃ c, (isDownEffect cb cfg now p s a).upd = a.upd ++ [upUpdater s c] := by
  unfold isDownEffect
  split_ifs <;> first
    | exact Or.inl rfl
    | exact Or.inr ⟨_, rfl⟩

theorem isDownEffect_skip (cb : EventCallbacks) (cfg : Option Config) (now : Nat)
    (p s : HookState) (a : Acc) (h : p.mouseDown.isDown = s.mouseDown.isDown) :
    isDownEffect cb cfg now p s a = a := by
  unfold isDownEffect
  simp [h]

theorem clickEffect_upd (cb : EventCallbacks) (cfg : Option Config) (now : Nat)
    (p s : HookState) (a : Acc) :
    (clickEffect cb cfg now p s a).upd = a.upd ∨
    (clickEffect cb cfg now p s a).upd = a.upd ++ [resetClickUpdater] := by
  unfold clickEffect
  split_ifs <;> first
    | exact Or.inl rfl
    | exact Or.inr rfl

theorem isHeldEffect_upd (cb : EventCallbacks) (cfg : Option Config)
    (p s : HookState) (a : Acc) : (isHeldEffect cb cfg p s a).upd = a.upd := by
  unfold isHeldEffect
  split_ifs <;> rfl

theorem isDraggedEffect_upd (cb : EventCallbacks) (p s : HookState) (a : Acc) :
    (isDraggedEffect cb p s a).upd = a.upd := by
  unfold isDraggedEffect
  split_ifs <;> rfl

theorem dragXYEffect_upd (cb : EventCallbacks) (cfg : Option Config) (now : Nat)
    (p s : HookState) (a : Acc) :
    (dragXYEffect cb cfg now p s a).upd = a.upd ∨
    ∃ ev, (dragXYEffect cb cfg now p s a).upd = a.upd ++ [dragHoldResetUpdater ev] := by
  unfold dragXYEffect
  split_ifs <;> first
    | exact Or.inl rfl
    | exact Or.inr ⟨_, rfl⟩

theorem isDragHeldEffect_upd (cb : EventCallbacks) (p s : HookState) (a : Acc) :
    (isDragHeldEffect cb p s a).upd = a.upd := by
  unfold isDragHeldEffect
  split_ifs <;> rfl

theorem roundAcc_upd_good (cb : EventCallbacks) (cfg : Option Config) (now : Nat)
    (p s : HookState) (a : Acc) (hbase : ∀ f ∈ a.upd, GoodF s a.upd f) :
    ∀ f ∈ (roundAcc cb cfg now p s a).upd, GoodF s a.upd f := by
  unfold roundAcc
  have step : ∀ (a2 : Acc), (∀ f ∈ a2.upd, GoodF s a.upd f) →
      ∀ (l2 : List (HookState → HookState)),
        (l2 = a2.upd ∨ (∃ c, l2 = a2.upd ++ [upUpdater s c]) ∨
          l2 = a2.upd ++ [resetClickUpdater] ∨
          ∃ ev, l2 = a2.upd ++ [dragHoldResetUpdater ev]) →
      ∀ f ∈ l2, GoodF s a.upd f := by
    intro a2 h2 l2 hl2 f hf
    rcases hl2 with rfl | ⟨c, rfl⟩ | rfl | ⟨ev, rfl⟩
    · exact h2 f hf
    · rcases List.mem_append.mp hf with h | h
      · exact h2 f h
      · simp at h; subst h; exact Or.inr (Or.inl ⟨c, rfl⟩)
    · rcases List.mem_append.mp hf with h | h
      · exact h2 f h
      · simp at h; subst h; exact Or.inr (Or.inr (Or.inl rfl))
    · rcases List.mem_append.mp hf with h | h
      · exact h2 f h
      · simp at h; subst h; exact Or.inr (Or.inr (Or.inr ⟨ev, rfl⟩))
  have h1 := step _ hbase _ (by
    rcases isDownEffect_upd cb cfg now p s a with h | ⟨c, h⟩
    · exact Or.inl h
    · exact Or.inr (Or.inl ⟨c, h⟩))
  have h2 := step _ h1 _ (by
    rcases clickEffect_upd cb cfg now p s (isDownEffect cb cfg now p s a) with h | h
    · exact Or.inl h
    · exact Or.inr (Or.inr (Or.inl h)))
  have h3 := step _ h2 _ (Or.inl (isHeldEffect_upd cb cfg p s _))
  have h4 := step _ h3 _ (Or.inl (isDraggedEffect_upd cb p s _))
  have h5 := step _ h4 _ (by
    rcases dragXYEffect_upd cb cfg now p s _ with h | ⟨ev, h⟩
    · exact Or.inl h
    · exact Or.inr (Or.inr (Or.inr ⟨ev, h⟩)))
  exact step _ h5 _ (Or.inl (isDragHeldEffect_upd cb p s _))

/-! Folding good updater lists. -/

theorem foldl_good_mouseDown {s0 : HookState} {base : List (HookState → HookState)}
    (hbase : base = []) :
    ∀ (l : List (HookState → HookState)), (∀ f ∈ l, GoodF s0 base f) →
      ∀ st : HookState, (l.foldl (fun st f => f st) st).mouseDown = st.mouseDown := by
  intro l
  induction l with
  | nil => intro _ st; rfl
  | cons f fs ih =>
    intro hl st
    have hf := hl f (List.mem_cons_self f fs)
    have hrest := ih (fun g hg => hl g (List.mem_cons_of_mem f hg)) (f st)
    rw [List.foldl_cons, hrest]
    rcases hf with hf | ⟨c, rfl⟩ | rfl | ⟨ev, rfl⟩
    · rw [hbase] at hf; cases hf
    · rfl
    · rfl
    · rfl

theorem foldl_good_dragHeld {s0 : HookState} {base : List (HookState → HookState)}
    (hbase : base = []) :
    ∀ (l : List (HookState → HookState)), (∀ f ∈ l, GoodF s0 base f) →
      ∀ st : HookState,
        (l.foldl (fun st f => f st) st).mouseDragHold.isDragHeld = true →
          st.mouseDragHold.isDragHeld = true := by
  intro l
  induction l with
  | nil => intro _ st h; exact h
  | cons f fs ih =>
    intro hl st h
    have hf := hl f (List.mem_cons_self f fs)
    have hrest := ih (fun g hg => hl g (List.mem_cons_of_mem f hg)) (f st)
    rw [List.foldl_cons] at h
    have h2 := hrest h
    rcases hf with hf | ⟨c, rfl⟩ | rfl | ⟨ev, rfl⟩
    · rw [hbase] at hf; cases hf
    · rw [upUpdater_dragHeld] at h2; cases h2
    · rw [resetClickUpdater_mouseDragHold] at h2; exact h2
    · rw [dragHoldResetUpdater_dragHeld] at h2; cases h2

theorem foldl_good_drag {s0 : HookState} {base : List (HookState → HookState)}
    (hbase : base = []) :
    ∀ (l : List (HookState → HookState)), (∀ f ∈ l, GoodF s0 base f) →
      ∀ st : HookState,
        (l.foldl (fun st f => f st) st).mouseDrag = st.mouseDrag ∨
          ((l.foldl (fun st f => f st) st).mouseDrag.isDragged = false ∧
            (l.foldl (fun st f => f st) st).mouseDrag.dragX = none ∧
            (l.foldl (fun st f => f st) st).mouseDrag.dragY = none) := by
  intro l
  induction l with
  | nil => intro _ st; exact Or.inl rfl
  | cons f fs ih =>
    intro hl st
    have hf := hl f (List.mem_cons_self f fs)
    have hrest := ih (fun g hg => hl g (List.mem_cons_of_mem f hg)) (f st)
    rw [List.foldl_cons]
    rcases hrest with h2 | h2
    · rw [h2]
      rcases hf with hf | ⟨c, rfl⟩ | rfl | ⟨ev, rfl⟩
      · rw [hbase] at hf; cases hf
      · exact Or.inr (upUpdater_dragShape s0 c st)
      · exact Or.inl (resetClickUpdater_mouseDrag st)
      · exact Or.inl (dragHoldResetUpdater_mouseDrag ev st)
    · exact Or.inr h2

theorem foldl_noUp_drag {base : List (HookState → HookState)}
    (hbase : base = []) :
    ∀ (l : List (HookState → HookState)), (∀ f ∈ l, GoodFNoUp base f) →
      ∀ st : HookState, (l.foldl (fun st f => f st) st).mouseDrag = st.mouseDrag := by
  intro l
  induction l with
  | nil => intro _ st; rfl
  | cons f fs ih =>
    intro hl st
    have hf := hl f (List.mem_cons_self f fs)
    have hrest := ih (fun g hg => hl g (List.mem_cons_of_mem f hg)) (f st)
    rw [List.foldl_cons, hrest]
    rcases hf with hf | rfl | ⟨ev, rfl⟩
    · rw [hbase] at hf; cases hf
    · exact resetClickUpdater_mouseDrag st
    · exact dragHoldResetUpdater_mouseDrag ev st

/-! Per-effect timer facts: every effect except `dragXYEffect` can only
remove drag-hold timers (its additions use other keys) and never touches the
`dragHold` ref. -/

theorem mem_clearTimer {tm : Timer} {ref : Option Nat} {ts : List Timer}
    (h : tm ∈ clearTimer ref ts) : tm ∈ ts := by
  cases ref with
  | none => exact h
  | some i => exact (List.mem_filter.mp h).1

theorem clearTimer_dragHold {ref : Option Nat} {ts : List Timer}
    (href : ∀ tm ∈ ts, tm.key = TimerKey.dragHold → ref = some tm.id) :
    ∀ tm ∈ clearTimer ref ts, tm.key ≠ TimerKey.dragHold := by
  intro tm hmem hkey
  cases ref with
  | none => exact Option.noConfusion (href tm hmem hkey)
  | some i =>
    obtain ⟨hts, hid⟩ := List.mem_filter.mp hmem
    have := href tm hts hkey
    simp at this hid
    exact hid this.symm

theorem isDownEffect_timers (cb : EventCallbacks) (cfg : Option Config) (now : Nat)
    (p s : HookState) (a : Acc) :
    DragShrink (isDownEffect cb cfg now p s a).m a.m ∧
    (isDownEffect cb cfg now p s a).m.dragHoldTimeoutRef = a.m.dragHoldTimeoutRef := by
  unfold isDownEffect
  split_ifs <;>
    refine ⟨fun tm hmem hkey => ?_, rfl⟩ <;>
    simp only [addTimer] at hmem <;>
    first
      | exact hmem
      | (rcases List.mem_append.mp hmem with h | h
         · exact h
         · simp at h; rw [h] at hkey; cases hkey)

theorem clickEffect_timers (cb : EventCallbacks) (cfg : Option Config) (now : Nat)
    (p s : HookState) (a : Acc) :
    DragShrink (clickEffect cb cfg now p s a).m a.m ∧
    (clickEffect cb cfg now p s a).m.dragHoldTimeoutRef = a.m.dragHoldTimeoutRef := by
  unfold clickEffect
  split_ifs <;>
    refine ⟨fun tm hmem hkey => ?_, rfl⟩ <;>
    simp only [addTimer] at hmem <;>
    first
      | exact hmem
      | exact mem_clearTimer hmem
      | (rcases List.mem_append.mp hmem with h | h
         · exact mem_clearTimer h
         · simp at h; rw [h] at hkey; cases hkey)
      | (rcases List.mem_append.mp hmem with h | h
         · exact h
         · simp at h; rw [h] at hkey; cases hkey)
      | exact mem_clearTimer (mem_clearTimer hmem)

theorem isHeldEffect_timers (cb : EventCallbacks) (cfg : Option Config)
    (p s : HookState) (a : Acc) :
    (isHeldEffect cb cfg p s a).m.timers = a.m.timers ∧
    (isHeldEffect cb cfg p s a).m.dragHoldTimeoutRef = a.m.dragHoldTimeoutRef := by
  unfold isHeldEffect
  split_ifs <;> exact ⟨rfl, rfl⟩

theorem isDraggedEffect_timers (cb : EventCallbacks) (p s : HookState) (a : Acc) :
    DragShrink (isDraggedEffect cb p s a).m a.m ∧
    (isDraggedEffect cb p s a).m.dragHoldTimeoutRef = a.m.dragHoldTimeoutRef := by
  unfold isDraggedEffect
  split_ifs <;>
    refine ⟨fun tm hmem hkey => ?_, rfl⟩ <;>
    first
      | exact hmem
      | exact mem_clearTimer hmem

theorem isDragHeldEffect_m (cb : EventCallbacks) (p s : HookState) (a : Acc) :
    (isDragHeldEffect cb p s a).m = a.m := by
  unfold isDragHeldEffect
  split_ifs <;> rfl

theorem dragXYEffect_skip (cb : EventCallbacks) (cfg : Option Config) (now : Nat)
    (p s : HookState) (a : Acc)
    (h : p.mouseDrag.dragX = s.mouseDrag.dragX ∧ p.mouseDrag.dragY = s.mouseDrag.dragY) :
    dragXYEffect cb cfg now p s a = a := by
  unfold dragXYEffect
  simp [h]

/-- When the drag positions changed, the effect first cancels the pending
drag-hold timer (removing every live one, by `TimerInvA`) and schedules a new
one only for a truthy position: any drag-hold timer after the effect implies
the truthy position, and the ref points to it. -/
theorem dragXYEffect_run (cb : EventCallbacks) (cfg : Option Config) (now : Nat)
    (p s : HookState) (a : Acc)
    (hdep : ¬(p.mouseDrag.dragX = s.mouseDrag.dragX ∧
              p.mouseDrag.dragY = s.mouseDrag.dragY))
    (hA : TimerInvA a.m) :
    (∀ tm ∈ (dragXYEffect cb cfg now p s a).m.timers, tm.key = TimerKey.dragHold →
      (truthyI s.mouseDrag.dragX || truthyI s.mouseDrag.dragY) = true) ∧
    TimerInvA (dragXYEffect cb cfg now p s a).m := by
  unfold dragXYEffect
  rw [if_neg hdep]
  split_ifs with h2
  · constructor
    · intro tm hmem hkey
      exact h2
    · intro tm hmem hkey
      simp only [addTimer] at hmem ⊢
      rcases List.mem_append.mp hmem with h | h
      · exact absurd hkey (clearTimer_dragHold hA tm h)
      · simp at h; rw [h]
  · constructor
    · intro tm hmem hkey
      exact absurd hkey (clearTimer_dragHold hA tm hmem)
    · intro tm hmem hkey
      exact absurd hkey (clearTimer_dragHold hA tm hmem)

/-! Round-level facts. -/

theorem runRound_prevHook (cb : EventCallbacks) (cfg : Option Config) (now : Nat)
    (m : Machine) : (runRound cb cfg now m).1.prevHook = m.hook := rfl

theorem runRound_timers_eq (cb : EventCallbacks) (cfg : Option Config) (now : Nat)
    (m : Machine) :
    (runRound cb cfg now m).1.timers =
      (roundAcc cb cfg now m.prevHook m.hook { m := m, upd := [], out := [] }).m.timers := rfl

theorem runRound_dragRef_eq (cb : EventCallbacks) (cfg : Option Config) (now : Nat)
    (m : Machine) :
    (runRound cb cfg now m).1.dragHoldTimeoutRef =
      (roundAcc cb cfg now m.prevHook m.hook
        { m := m, upd := [], out := [] }).m.dragHoldTimeoutRef := rfl

theorem runRound_hook_eq (cb : EventCallbacks) (cfg : Option Config) (now : Nat)
    (m : Machine) :
    (runRound cb cfg now m).1.hook =
      ((roundAcc cb cfg now m.prevHook m.hook
          { m := m, upd := [], out := [] }).upd).foldl (fun st f => f st) m.hook := rfl

theorem runRound_mouseDown (cb : EventCallbacks) (cfg : Option Config) (now : Nat)
    (m : Machine) : (runRound cb cfg now m).1.hook.mouseDown = m.hook.mouseDown := by
  rw [runRound_hook_eq]
  exact foldl_good_mouseDown rfl _
    (roundAcc_upd_good cb cfg now m.prevHook m.hook _ (by intro f hf; cases hf)) m.hook

theorem runRound_isDragHeld (cb : EventCallbacks) (cfg : Option Config) (now : Nat)
    (m : Machine)
    (h : (runRound cb cfg now m).1.hook.mouseDragHold.isDragHeld = true) :
    m.hook.mouseDragHold.isDragHeld = true := by
  rw [runRound_hook_eq] at h
  exact foldl_good_dragHeld rfl _
    (roundAcc_upd_good cb cfg now m.prevHook m.hook _ (by intro f hf; cases hf)) m.hook h

theorem runRound_dragShape (cb : EventCallbacks) (cfg : Option Config) (now : Nat)
    (m : Machine) :
    (runRound cb cfg now m).1.hook.mouseDrag = m.hook.mouseDrag ∨
      ((runRound cb cfg now m).1.hook.mouseDrag.isDragged = false ∧
        (runRound cb cfg now m).1.hook.mouseDrag.dragX = none ∧
        (runRound cb cfg now m).1.hook.mouseDrag.dragY = none) := by
  rw [runRound_hook_eq]
  exact foldl_good_drag rfl _
    (roundAcc_upd_good cb cfg now m.prevHook m.hook _ (by intro f hf; cases hf)) m.hook

theorem runRound_timerInvA (cb : EventCallbacks) (cfg : Option Config) (now : Nat)
    (m : Machine) (hA : TimerInvA m) : TimerInvA (runRound cb cfg now m).1 := by
  have hshow : ∀ tm ∈ (runRound cb cfg now m).1.timers, tm.key = TimerKey.dragHold →
      (runRound cb cfg now m).1.dragHoldTimeoutRef = some tm.id := by
    rw [runRound_timers_eq, runRound_dragRef_eq]
    set p := m.prevHook
    set s := m.hook
    set a0 : Acc := { m := m, upd := [], out := [] }
    have h0 : TimerInvA a0.m := hA
    have h1 := timerInvA_of_shrink (isDownEffect_timers cb cfg now p s a0).1
      (isDownEffect_timers cb cfg now p s a0).2 h0
    have h2 := timerInvA_of_shrink (clickEffect_timers cb cfg now p s _).1
      (clickEffect_timers cb cfg now p s _).2 h1
    have h3 : TimerInvA (isHeldEffect cb cfg p s
        (clickEffect cb cfg now p s (isDownEffect cb cfg now p s a0))).m := by
      have he := isHeldEffect_timers cb cfg p s
        (clickEffect cb cfg now p s (isDownEffect cb cfg now p s a0))
      intro tm hmem hkey
      rw [he.2]
      exact h2 tm (he.1 ▸ hmem) hkey
    have h4 := timerInvA_of_shrink (isDraggedEffect_timers cb p s _).1
      (isDraggedEffect_timers cb p s _).2 h3
    by_cases hdep : p.mouseDrag.dragX = s.mouseDrag.dragX ∧
        p.mouseDrag.dragY = s.mouseDrag.dragY
    · rw [roundAcc, dragXYEffect_skip cb cfg now p s _ hdep, isDragHeldEffect_m]
      exact h4
    · have h5 := (dragXYEffect_run cb cfg now p s _ hdep h4).2
      rw [roundAcc, isDragHeldEffect_m]
      exact h5
  exact hshow

theorem runRound_HOk (cb : EventCallbacks) (cfg : Option Config) (now : Nat)
    (m : Machine) (h : HOk m.hook) : HOk (runRound cb cfg now m).1.hook := by
  rcases runRound_dragShape cb cfg now m with h2 | h2
  · intro ht
    rw [h2] at ht ⊢
    exact h ht
  · intro ht
    rw [h2.2.1, h2.2.2] at ht
    simp [truthyI] at ht
  
theorem runRound_D2Ok (cb : EventCallbacks) (cfg : Option Config) (now : Nat)
    (m : Machine) (h : D2Ok m.hook) : D2Ok (runRound cb cfg now m).1.hook := by
  rcases runRound_dragShape cb cfg now m with h2 | h2
  · intro ht
    rw [h2] at ht ⊢
    exact h ht
  · intro ht
    rw [h2.1] at ht
    cases ht

/-- The `isDown` dependency settles after one round (no queued update ever
touches `mouseDown`, and `prevHook` becomes the old render). -/
def S1 (m : Machine) : Prop := m.hook.mouseDown = m.prevHook.mouseDown

/-- The drag positions settle once `mouseDown` has settled. -/
def S2 (m : Machine) : Prop := m.hook.mouseDrag = m.prevHook.mouseDrag

theorem roundAcc_upd_noUp (cb : EventCallbacks) (cfg : Option Config) (now : Nat)
    (p s : HookState) (a : Acc) (hdn : p.mouseDown.isDown = s.mouseDown.isDown)
    (hbase : ∀ f ∈ a.upd, GoodFNoUp a.upd f) :
    ∀ f ∈ (roundAcc cb cfg now p s a).upd, GoodFNoUp a.upd f := by
  unfold roundAcc
  rw [isDownEffect_skip cb cfg now p s a hdn]
  have step : ∀ (a2 : Acc), (∀ f ∈ a2.upd, GoodFNoUp a.upd f) →
      ∀ (l2 : List (HookState → HookState)),
        (l2 = a2.upd ∨ l2 = a2.upd ++ [resetClickUpdater] ∨
          ∃ ev, l2 = a2.upd ++ [dragHoldResetUpdater ev]) →
      ∀ f ∈ l2, GoodFNoUp a.upd f := by
    intro a2 h2 l2 hl2 f hf
    rcases hl2 with rfl | rfl | ⟨ev, rfl⟩
    · exact h2 f hf
    · rcases List.mem_append.mp hf with h | h
      · exact h2 f h
      · simp at h; subst h; exact Or.inr (Or.inl rfl)
    · rcases List.mem_append.mp hf with h | h
      · exact h2 f h
      · simp at h; subst h; exact Or.inr (Or.inr ⟨ev, rfl⟩)
  have h2 := step _ hbase _ (by
    rcases clickEffect_upd cb cfg now p s a with h | h
    · exact Or.inl h
    · exact Or.inr (Or.inl h))
  have h3 := step _ h2 _ (Or.inl (isHeldEffect_upd cb cfg p s _))
  have h4 := step _ h3 _ (Or.inl (isDraggedEffect_upd cb p s _))
  have h5 := step _ h4 _ (by
    rcases dragXYEffect_upd cb cfg now p s _ with h | ⟨ev, h⟩
    · exact Or.inl h
    · exact Or.inr (Or.inr ⟨ev, h⟩))
  exact step _ h5 _ (Or.inl (isDragHeldEffect_upd cb p s _))

theorem runRound_dragPres (cb : EventCallbacks) (cfg : Option Config) (now : Nat)
    (m : Machine) (hS1 : S1 m) :
    (runRound cb cfg now m).1.hook.mouseDrag = m.hook.mouseDrag := by
  rw [runRound_hook_eq]
  have hdn : m.prevHook.mouseDown.isDown = m.hook.mouseDown.isDown := by
    rw [hS1]
  exact foldl_noUp_drag rfl _
    (roundAcc_upd_noUp cb cfg now m.prevHook m.hook _ hdn (by intro f hf; cases hf)) m.hook

theorem runRound_S1 (cb : EventCallbacks) (cfg : Option Config) (now : Nat)
    (m : Machine) : S1 (runRound cb cfg now m).1 := by
  unfold S1
  rw [runRound_prevHook, runRound_mouseDown]

theorem runRound_S2_out (cb : EventCallbacks) (cfg : Option Config) (now : Nat)
    (m : Machine) (hS1 : S1 m) : S2 (runRound cb cfg now m).1 := by
  unfold S2
  rw [runRound_prevHook, runRound_dragPres cb cfg now m hS1]

/-- After a round, any live drag-hold timer either predates the round (and the
drag positions did not change) or was scheduled this round for truthy
positions. -/
theorem runRound_live_cases (cb : EventCallbacks) (cfg : Option Config) (now : Nat)
    (m : Machine) (hA : TimerInvA m) :
    ∀ tm ∈ (runRound cb cfg now m).1.timers, tm.key = TimerKey.dragHold →
      (tm ∈ m.timers ∧ (m.prevHook.mouseDrag.dragX = m.hook.mouseDrag.dragX ∧
        m.prevHook.mouseDrag.dragY = m.hook.mouseDrag.dragY)) ∨
      (truthyI m.hook.mouseDrag.dragX || truthyI m.hook.mouseDrag.dragY) = true := by
  intro tm hmem hkey
  rw [runRound_timers_eq] at hmem
  set p := m.prevHook
  set s := m.hook
  set a0 : Acc := { m := m, upd := [], out := [] }
  have h0 : TimerInvA a0.m := hA
  have h1 := timerInvA_of_shrink (isDownEffect_timers cb cfg now p s a0).1
    (isDownEffect_timers cb cfg now p s a0).2 h0
  have h2 := timerInvA_of_shrink (clickEffect_timers cb cfg now p s _).1
    (clickEffect_timers cb cfg now p s _).2 h1
  have h3 : TimerInvA (isHeldEffect cb cfg p s
      (clickEffect cb cfg now p s (isDownEffect cb cfg now p s a0))).m := by
    have he := isHeldEffect_timers cb cfg p s
      (clickEffect cb cfg now p s (isDownEffect cb cfg now p s a0))
    intro tm2 hmem2 hkey2
    rw [he.2]
    exact h2 tm2 (he.1 ▸ hmem2) hkey2
  have h4 := timerInvA_of_shrink (isDraggedEffect_timers cb p s _).1
    (isDraggedEffect_timers cb p s _).2 h3
  by_cases hdep : p.mouseDrag.dragX = s.mouseDrag.dragX ∧
      p.mouseDrag.dragY = s.mouseDrag.dragY
  · left
    refine ⟨?_, hdep⟩
    rw [roundAcc, dragXYEffect_skip cb cfg now p s _ hdep, isDragHeldEffect_m] at hmem
    have hm4 := (isDraggedEffect_timers cb p s _).1 tm hmem hkey
    have hm3 := (isHeldEffect_timers cb cfg p s _).1 ▸ hm4
    have hm2 := (clickEffect_timers cb cfg now p s _).1 tm hm3 hkey
    exact (isDownEffect_timers cb cfg now p s a0).1 tm hm2 hkey
  · right
    rw [roundAcc, isDragHeldEffect_m] at hmem
    exact (dragXYEffect_run cb cfg now p s _ hdep h4).1 tm hmem hkey

/-- LP ("pending drag-hold implies dragging or an imminent cancel") is
preserved by every round. -/
theorem runRound_LP (cb : EventCallbacks) (cfg : Option Config) (now : Nat)
    (m : Machine) (hA : TimerInvA m) (hH : HOk m.hook) (hD : D2Ok m.hook)
    (hL : LP m) : LP (runRound cb cfg now m).1 := by
  have finish : m.hook.mouseDrag.isDragged = true →
      ((runRound cb cfg now m).1.hook.mouseDrag.isDragged = true ∨
        ¬((runRound cb cfg now m).1.prevHook.mouseDrag.dragX =
            (runRound cb cfg now m).1.hook.mouseDrag.dragX ∧
          (runRound cb cfg now m).1.prevHook.mouseDrag.dragY =
            (runRound cb cfg now m).1.hook.mouseDrag.dragY)) := by
    intro hdrag
    rcases runRound_dragShape cb cfg now m with heq | hshape
    · exact Or.inl (heq ▸ hdrag)
    · right
      rw [runRound_prevHook]
      rintro ⟨hx, -⟩
      rw [hshape.2.1] at hx
      have hsome := (hD hdrag).1
      rw [hx] at hsome
      cases hsome
  rintro ⟨tm, hmem, hkey⟩
  rcases runRound_live_cases cb cfg now m hA tm hmem hkey with ⟨hmm, hdep⟩ | htruthy
  · have hdrag : m.hook.mouseDrag.isDragged = true := by
      rcases hL ⟨tm, hmm, hkey⟩ with h | h
      · exact h
      · exact absurd hdep h
    exact finish hdrag
  · exact finish (hH htruthy)

/-! Cascade-level facts. -/

theorem runRounds_machine (cb : EventCallbacks) (cfg : Option Config) (now : Nat)
    (n : Nat) (m : Machine) :
    (runRounds cb cfg now (n + 1) m).1 = (runRounds cb cfg now n (runRound cb cfg now m).1).1 := rfl

theorem runRounds_core (cb : EventCallbacks) (cfg : Option Config) (now : Nat)
    (n : Nat) (m : Machine)
    (h : TimerInvA m ∧ HOk m.hook ∧ D2Ok m.hook ∧ LP m) :
    TimerInvA (runRounds cb cfg now n m).1 ∧ HOk (runRounds cb cfg now n m).1.hook ∧
      D2Ok (runRounds cb cfg now n m).1.hook ∧ LP (runRounds cb cfg now n m).1 := by
  induction n generalizing m with
  | zero => exact h
  | succ k ih =>
    rw [runRounds_machine]
    exact ih (runRound cb cfg now m).1
      ⟨runRound_timerInvA cb cfg now m h.1, runRound_HOk cb cfg now m h.2.1,
        runRound_D2Ok cb cfg now m h.2.2.1,
        runRound_LP cb cfg now m h.1 h.2.1 h.2.2.1 h.2.2.2⟩

theorem runRounds_isDragHeld (cb : EventCallbacks) (cfg : Option Config) (now : Nat)
    (n : Nat) (m : Machine)
    (h : (runRounds cb cfg now n m).1.hook.mouseDragHold.isDragHeld = true) :
    m.hook.mouseDragHold.isDragHeld = true := by
  induction n generalizing m with
  | zero => exact h
  | succ k ih =>
    rw [runRounds_machine] at h
    exact runRound_isDragHeld cb cfg now m (ih (runRound cb cfg now m).1 h)

theorem runRounds_S2 (cb : EventCallbacks) (cfg : Option Config) (now : Nat)
    (n : Nat) (m : Machine) (hS1 : S1 m) : S2 (runRounds cb cfg now (n + 1) m).1 := by
  induction n generalizing m with
  | zero => exact runRound_S2_out cb cfg now m hS1
  | succ k ih =>
    rw [runRounds_machine]
    exact ih (runRound cb cfg now m).1 (runRound_S1 cb cfg now m)

theorem strongL_of_LP_S2 {m : Machine} (hL : LP m) (hS2 : S2 m) : StrongL m := by
  intro hlive
  rcases hL hlive with h | h
  · exact h
  · exact absurd ⟨congrArg MouseDragState.dragX hS2.symm,
      congrArg MouseDragState.dragY hS2.symm⟩ h

/-- A handler commit followed by the six-round cascade lands in `InvB`. -/
theorem runRounds6_invB (cb : EventCallbacks) (cfg : Option Config) (now : Nat)
    (m0 : Machine) (h : TimerInvA m0 ∧ HOk m0.hook ∧ D2Ok m0.hook ∧ LP m0) :
    InvB (runRounds cb cfg now 6 m0).1 := by
  have hcore := runRounds_core cb cfg now 6 m0 h
  have h6 : (runRounds cb cfg now 6 m0).1 =
      (runRounds cb cfg now (4 + 1) (runRound cb cfg now m0).1).1 := rfl
  have hS2 : S2 (runRounds cb cfg now 6 m0).1 := by
    rw [h6]
    exact runRounds_S2 cb cfg now 4 (runRound cb cfg now m0).1 (runRound_S1 cb cfg now m0)
  exact ⟨hcore.1, hcore.2.1, hcore.2.2.1, strongL_of_LP_S2 hcore.2.2.2 hS2⟩

/-- Firing the pending drag-hold timer removes every live drag-hold timer. -/
theorem fire_dragHold_clears {m : Machine} {id : Nat} {t : Timer}
    (hA : TimerInvA m) (hfind : m.timers.find? (fun tm => tm.id = id) = some t)
    (hk : t.key = TimerKey.dragHold) :
    ∀ tm ∈ m.timers.filter (fun tm => tm.id ≠ id), tm.key ≠ TimerKey.dragHold := by
  intro tm hmem hkey
  obtain ⟨hts, hid⟩ := List.mem_filter.mp hmem
  have htid := hA tm hts hkey
  have htmem := List.mem_of_find?_eq_some hfind
  have htpred := List.find?_some hfind
  simp at htpred hid
  have := hA t htmem hk
  rw [htpred] at this
  rw [htid] at this
  exact hid (Option.some.inj this)

/-- `InvB` is preserved by every input, and the DragHeld flag can only be
raised by a step when the machine was already dragging. -/
theorem invB_entry_step (cb : EventCallbacks) (cfg : Option Config) (t : Nat)
    (i : Input) (m : Machine) (h : InvB m) :
    InvB (stepInput cb cfg t i m).1 ∧
    ((stepInput cb cfg t i m).1.hook.mouseDragHold.isDragHeld = true →
      m.hook.mouseDragHold.isDragHeld = true ∨ m.hook.mouseDrag.isDragged = true) := by
  obtain ⟨hA, hH, hD, hS⟩ := h
  cases i with
  | down e =>
    simp only [stepInput]
    by_cases hat : m.attached
    · rw [if_pos hat]
      by_cases hmt : e.kind = EvKind.touch ∧ 1 < e.touches
      · rw [if_pos hmt]
        exact ⟨⟨hA, hH, hD, hS⟩, fun h2 => Or.inl h2⟩
      · rw [if_neg hmt]
        have hcore : TimerInvA m ∧ HOk m.hook ∧ D2Ok m.hook ∧
            LP (commitState (fun st =>
              { st with mouseDown := { isDown := true, nativeEvent := some e,
                                       time := some t } })
              { m with eventTypes := some e.kind }) :=
          ⟨hA, hH, hD, fun hl => Or.inl (hS hl)⟩
        refine ⟨runRounds6_invB cb cfg t _ hcore, fun hpost => ?_⟩
        have h0 := runRounds_isDragHeld cb cfg t 6 _ hpost
        exact Or.inl h0
    · rw [if_neg hat]
      exact ⟨⟨hA, hH, hD, hS⟩, fun h2 => Or.inl h2⟩
  | move e =>
    simp only [stepInput]
    by_cases hml : m.moveListener
    · rw [if_pos hml]
      have hcore : TimerInvA m ∧
          HOk (commitState (fun st =>
            { st with mouseDrag := { isDragged := true, nativeEvent := some e,
                                     dragX := some e.clientX, dragY := some e.clientY } })
            m).hook ∧
          D2Ok (commitState (fun st =>
            { st with mouseDrag := { isDragged := true, nativeEvent := some e,
                                     dragX := some e.clientX, dragY := some e.clientY } })
            m).hook ∧
          LP (commitState (fun st =>
            { st with mouseDrag := { isDragged := true, nativeEvent := some e,
                                     dragX := some e.clientX, dragY := some e.clientY } })
            m) :=
        ⟨hA, fun _ => rfl, fun _ => ⟨rfl, rfl⟩, fun _ => Or.inl rfl⟩
      refine ⟨runRounds6_invB cb cfg t _ hcore, fun hpost => ?_⟩
      have h0 := runRounds_isDragHeld cb cfg t 6 _ hpost
      exact Or.inl h0
    · rw [if_neg hml]
      exact ⟨⟨hA, hH, hD, hS⟩, fun h2 => Or.inl h2⟩
  | up e =>
    simp only [stepInput]
    by_cases hul : m.upListener
    · rw [if_pos hul]
      have hcore : TimerInvA m ∧ HOk m.hook ∧ D2Ok m.hook ∧
          LP (commitState (fun st =>
            { st with mouseDown := { isDown := false, nativeEvent := some e,
                                     time := some t } }) m) :=
        ⟨hA, hH, hD, fun hl => Or.inl (hS hl)⟩
      refine ⟨runRounds6_invB cb cfg t _ hcore, fun hpost => ?_⟩
      have h0 := runRounds_isDragHeld cb cfg t 6 _ hpost
      exact Or.inl h0
    · rw [if_neg hul]
      exact ⟨⟨hA, hH, hD, hS⟩, fun h2 => Or.inl h2⟩
  | leave e =>
    simp only [stepInput]
    by_cases hll : m.leaveListener
    · rw [if_pos hll]
      refine ⟨⟨?_, hH, hD, ?_⟩, fun h2 => Or.inl h2⟩
      · intro tm hmem hkey
        exact hA tm (mem_clearTimer hmem) hkey
      · rintro ⟨tm, hmem, hkey⟩
        exact hS ⟨tm, mem_clearTimer hmem, hkey⟩
    · rw [if_neg hll]
      exact ⟨⟨hA, hH, hD, hS⟩, fun h2 => Or.inl h2⟩
  | fire id =>
    simp only [stepInput]
    cases hfind : m.timers.find? (fun tm => tm.id = id) with
    | none =>
      simp only [hfind]
      exact ⟨⟨hA, hH, hD, hS⟩, fun h2 => Or.inl h2⟩
    | some tmr =>
      simp only [hfind]
      have hshrA : TimerInvA { m with timers := m.timers.filter (fun tm => tm.id ≠ id) } := by
        intro tm hmem hkey
        exact hA tm (List.mem_filter.mp hmem).1 hkey
      cases tmr with
      | mk tid tkey tdl tpl =>
      cases tkey with
      | mouseHold =>
        have hcore : TimerInvA { { m with
              timers := m.timers.filter (fun tm => tm.id ≠ id) } with
              leaveListener := false } ∧ HOk m.hook ∧ D2Ok m.hook ∧
            LP (commitState (fun st =>
              { st with mouseHold := { isHeld := true, nativeEvent := tpl } })
              { { m with timers := m.timers.filter (fun tm => tm.id ≠ id) } with
                leaveListener := false }) := by
          refine ⟨?_, hH, hD, ?_⟩
          · intro tm hmem hkey
            exact hA tm (List.mem_filter.mp hmem).1 hkey
          · rintro ⟨tm, hmem, hkey⟩
            exact Or.inl (hS ⟨tm, (List.mem_filter.mp hmem).1, hkey⟩)
        refine ⟨runRounds6_invB cb cfg t _ hcore, fun hpost => ?_⟩
        have h0 := runRounds_isDragHeld cb cfg t 6 _ hpost
        exact Or.inl h0
      | doubleClick =>
        have hcore : TimerInvA { m with timers := m.timers.filter (fun tm => tm.id ≠ id) } ∧
            HOk m.hook ∧ D2Ok m.hook ∧
            LP (commitState (fun st =>
              { st with click := { count := 0, time := none, nativeEvent := none } })
              { m with timers := m.timers.filter (fun tm => tm.id ≠ id) }) := by
          refine ⟨hshrA, hH, hD, ?_⟩
          rintro ⟨tm, hmem, hkey⟩
          exact Or.inl (hS ⟨tm, (List.mem_filter.mp hmem).1, hkey⟩)
        refine ⟨runRounds6_invB cb cfg t _ hcore, fun hpost => ?_⟩
        have h0 := runRounds_isDragHeld cb cfg t 6 _ hpost
        exact Or.inl h0
      | dragHold =>
        have hdragged : m.hook.mouseDrag.isDragged = true :=
          hS ⟨⟨tid, TimerKey.dragHold, tdl, tpl⟩, List.mem_of_find?_eq_some hfind, rfl⟩
        have hcore : TimerInvA { m with timers := m.timers.filter (fun tm => tm.id ≠ id) } ∧
            HOk m.hook ∧ D2Ok m.hook ∧
            LP (commitState (fun st =>
              { st with mouseDragHold := { isDragHeld := true, nativeEvent := tpl } })
              { m with timers := m.timers.filter (fun tm => tm.id ≠ id) }) := by
          refine ⟨hshrA, hH, hD, ?_⟩
          rintro ⟨tm, hmem, hkey⟩
          exact absurd hkey (fire_dragHold_clears hA hfind rfl tm hmem)
        exact ⟨runRounds6_invB cb cfg t _ hcore, fun _ => Or.inr hdragged⟩

theorem invB_init : InvB initMachine := by
  refine ⟨fun tm hmem => absurd hmem (List.not_mem_nil tm), ?_, ?_, ?_⟩
  · intro h
    simp [initMachine, initState, truthyI] at h
  · intro h
    simp [initMachine, initState] at h
  · rintro ⟨tm, hmem, -⟩
    exact absurd hmem (List.not_mem_nil tm)

/-- Every machine reachable by valid inputs satisfies the drag-hold
invariant. -/
theorem reachable_invB {cb : EventCallbacks} {cfg : Option Config} {t : Nat}
    {m : Machine} (h : Reachable cb cfg t m) : InvB m := by
  induction h with
  | init => exact invB_init
  | step hr hle hv ih => exact (invB_entry_step _ _ _ _ _ ih).1

/-! ### Concrete sessions used by the claims -/

/-- Every callback supplied. -/
def cbAll : EventCallbacks where
  onSingleClickCallback := true
  onDoubleClickCallback := true
  onMouseHoldCallback := true
  onMouseHoldEndCallback := true
  onDragCallback := true
  onDragStartCallback := true
  onDragEndCallback := true
  onDragHoldCallback := true
  onDragHoldEndCallback := true
  onMouseDownCallback := true
  onMouseUpCallback := true

/-- Only the click callbacks (no hold callback, so the hold timer is never
scheduled and the double-click timer gets id 0). -/
def cbClicks : EventCallbacks where
  onSingleClickCallback := true
  onDoubleClickCallback := true
  onMouseHoldCallback := false
  onMouseHoldEndCallback := false
  onDragCallback := false
  onDragStartCallback := false
  onDragEndCallback := false
  onDragHoldCallback := false
  onDragHoldEndCallback := false
  onMouseDownCallback := false
  onMouseUpCallback := false

/-- A drag-end callback (making `preventClickIfPosChange` default to true)
plus a single-click callback to observe the click resolution. -/
def cbDragEnd : EventCallbacks where
  onSingleClickCallback := true
  onDoubleClickCallback := false
  onMouseHoldCallback := false
  onMouseHoldEndCallback := false
  onDragCallback := false
  onDragStartCallback := false
  onDragEndCallback := true
  onDragHoldCallback := false
  onDragHoldEndCallback := false
  onMouseDownCallback := false
  onMouseUpCallback := false

/-- A mouse event at the origin of element 1. -/
def eOrigin : NativeEvent where
  target := 1
  clientX := 0
  clientY := 0
  pageX := 0
  pageY := 0
  kind := EvKind.mouse

/-- A mouse event at a different position on element 1. -/
def eMoved : NativeEvent where
  target := 1
  clientX := 5
  clientY := 7
  pageX := 5
  pageY := 7
  kind := EvKind.mouse

/-- A touchstart carrying two simultaneous touch points. -/
def eMulti : NativeEvent where
  target := 1
  clientX := 0
  clientY := 0
  pageX := 0
  pageY := 0
  kind := EvKind.touch
  touches := 2

/-- Down, hold timer fires at its 750 ms deadline, then a move at 800 ms. -/
def trHeldDrag : List (Nat × Input) :=
  [(0, Input.down eOrigin), (750, Input.fire 0), (800, Input.move eMoved)]

/-! ### C1 -/

/-! ### Canonical click sessions with symbolic timestamps

The intermediate machines of the claim sessions, as explicit functions of
the event timestamps, plus one step equation per input.  No branch of the
recognizer inspects a timestamp except the double-click window test, so each
equation is a plain computation. -/

/-- Hook state right after a down at time `t` (fresh session). -/
def hkDown (t : Nat) : HookState :=
  { initState with
    mouseDown := { isDown := true, nativeEvent := some eOrigin, time := some t } }

/-- Machine after a down at `t` under `cbClicks` (no hold callback: no timer,
no move/leave listener). -/
def mcDown (t : Nat) : Machine :=
  { initMachine with
    hook := hkDown t
    prevHook := hkDown t
    upListener := true
    eventTypes := some EvKind.mouse }

/-- Hook state after the first qualifying up at time `t`: click count 1. -/
def hkUp1 (t : Nat) : HookState where
  mouseDown := { isDown := false, nativeEvent := some eOrigin, time := some t }
  mouseHold := { isHeld := false, nativeEvent := some eOrigin }
  mouseDrag := { isDragged := false, nativeEvent := some eOrigin, dragX := none, dragY := none }
  mouseDragHold := { isDragHeld := false, nativeEvent := some eOrigin }
  click := { count := 1, time := some t, nativeEvent := some eOrigin }

/-- Machine after the first qualifying up at `t` under `cbClicks`: the
`doubleClick` timer (id 0) pends until `t + 250`. -/
def mcUp1 (t : Nat) : Machine :=
  { initMachine with
    hook := hkUp1 t
    prevHook := hkUp1 t
    timers := [{ id := 0, key := TimerKey.doubleClick, deadline := t + 250,
                 payload := some eOrigin }]
    nextTimerId := 1
    doubleClickTimoutRef := some 0
    eventTypes := some EvKind.mouse }

/-- Hook state after a second down at `tc` (previous click at `tb` still
counted). -/
def hkDown2 (tb tc : Nat) : HookState :=
  { hkUp1 tb with
    mouseDown := { isDown := true, nativeEvent := some eOrigin, time := some tc } }

/-- Machine after the second down at `tc` under `cbClicks`. -/
def mcDown2 (tb tc : Nat) : Machine :=
  { mcUp1 tb with
    hook := hkDown2 tb tc
    prevHook := hkDown2 tb tc
    upListener := true }

/-- Hook state after a stale second up at `td`: the count is left at 2. -/
def hkStale (td : Nat) : HookState where
  mouseDown := { isDown := false, nativeEvent := some eOrigin, time := some td }
  mouseHold := { isHeld := false, nativeEvent := some eOrigin }
  mouseDrag := { isDragged := false, nativeEvent := some eOrigin, dragX := none, dragY := none }
  mouseDragHold := { isDragHeld := false, nativeEvent := some eOrigin }
  click := { count := 2, time := some td, nativeEvent := some eOrigin }

/-- Machine after the stale second up: count 2, the original `doubleClick`
timer still pending at `tb + 250` — nothing was reset or restarted. -/
def mcStale (tb td : Nat) : Machine :=
  { mcUp1 tb with
    hook := hkStale td
    prevHook := hkStale td }

/-- Hook state after the pending `doubleClick` timer finally fires. -/
def hkFired (td : Nat) : HookState :=
  { hkStale td with click := { count := 0, time := none, nativeEvent := none } }

/-- Machine after the pending timer fires on the stale state. -/
def mcFired (td : Nat) : Machine :=
  { initMachine with
    hook := hkFired td
    prevHook := hkFired td
    nextTimerId := 1
    doubleClickTimoutRef := some 0
    eventTypes := some EvKind.mouse }

/-- Hook state after an up that resolved immediately to a single click
(no double-click callback) or after the `doubleClick` timer fired on a
count-1 state. -/
def hkUp1Reset (t : Nat) : HookState :=
  { hkUp1 t with click := { count := 0, time := none, nativeEvent := none } }

/-- Machine after the `doubleClick` timer fires on the count-1 state. -/
def mcUp1Fired (t : Nat) : Machine :=
  { initMachine with
    hook := hkUp1Reset t
    prevHook := hkUp1Reset t
    nextTimerId := 1
    doubleClickTimoutRef := some 0
    eventTypes := some EvKind.mouse }

/-- Machine after an up resolved immediately to a single click (no
double-click callback configured): no timer was ever scheduled. -/
def mcUp1Immediate (t : Nat) : Machine :=
  { initMachine with
    hook := hkUp1Reset t
    prevHook := hkUp1Reset t
    eventTypes := some EvKind.mouse }

/-- Only a single-click callback (no double-click callback). -/
def cbSingle : EventCallbacks :=
  { cbClicks with onDoubleClickCallback := false }

theorem stepDown_clicks (t : Nat) :
    stepInput cbClicks none t (Input.down eOrigin) initMachine = (mcDown t, []) := by
  simp [stepInput, runRounds, runRound, roundAcc, isDownEffect, clickEffect,
    isHeldEffect, isDraggedEffect, dragXYEffect, isDragHeldEffect, commitState,
    addTimer, clearTimer, emitIf, truthyI, sameTarget, upUpdater, resetClickUpdater,
    dragHoldResetUpdater, initMachine, initState, cbClicks, eOrigin, listenForMoveEvents,
    mcDown, hkDown]

theorem stepUp1_clicks (ta tb : Nat) :
    stepInput cbClicks none tb (Input.up eOrigin) (mcDown ta) = (mcUp1 tb, []) := by
  simp [stepInput, runRounds, runRound, roundAcc, isDownEffect, clickEffect,
    isHeldEffect, isDraggedEffect, dragXYEffect, isDragHeldEffect, commitState,
    addTimer, clearTimer, emitIf, truthyI, sameTarget, upUpdater, resetClickUpdater,
    dragHoldResetUpdater, initMachine, initState, cbClicks, eOrigin, listenForMoveEvents,
    mcDown, hkDown, mcUp1, hkUp1, resolveDoubleClickDuration]

theorem stepDown2_clicks (tb tc : Nat) :
    stepInput cbClicks none tc (Input.down eOrigin) (mcUp1 tb) = (mcDown2 tb tc, []) := by
  simp [stepInput, runRounds, runRound, roundAcc, isDownEffect, clickEffect,
    isHeldEffect, isDraggedEffect, dragXYEffect, isDragHeldEffect, commitState,
    addTimer, clearTimer, emitIf, truthyI, sameTarget, upUpdater, resetClickUpdater,
    dragHoldResetUpdater, initMachine, initState, cbClicks, eOrigin, listenForMoveEvents,
    mcUp1, hkUp1, mcDown2, hkDown2]

theorem stepStale_clicks (tb tc td : Nat) (hw : ¬(td - tb ≤ 250)) :
    stepInput cbClicks none td (Input.up eOrigin) (mcDown2 tb tc) = (mcStale tb td, []) := by
  simp [stepInput, runRounds, runRound, roundAcc, isDownEffect, clickEffect,
    isHeldEffect, isDraggedEffect, dragXYEffect, isDragHeldEffect, commitState,
    addTimer, clearTimer, emitIf, truthyI, sameTarget, upUpdater, resetClickUpdater,
    dragHoldResetUpdater, initMachine, initState, cbClicks, eOrigin, listenForMoveEvents,
    mcDown2, hkDown2, hkUp1, mcStale, hkStale, mcUp1, resolveDoubleClickDuration, hw]

theorem stepFiredStale_clicks (tb td te : Nat) :
    stepInput cbClicks none te (Input.fire 0) (mcStale tb td) =
      (mcFired td, [Emit.singleClick]) := by
  simp [stepInput, runRounds, runRound, roundAcc, isDownEffect, clickEffect,
    isHeldEffect, isDraggedEffect, dragXYEffect, isDragHeldEffect, commitState,
    addTimer, clearTimer, emitIf, truthyI, sameTarget, upUpdater, resetClickUpdater,
    dragHoldResetUpdater, initMachine, initState, cbClicks, eOrigin, listenForMoveEvents,
    mcStale, hkStale, mcUp1, hkUp1, mcFired, hkFired, List.find?]

theorem stepFired1_clicks (tb te : Nat) :
    stepInput cbClicks none te (Input.fire 0) (mcUp1 tb) =
      (mcUp1Fired tb, [Emit.singleClick]) := by
  simp [stepInput, runRounds, runRound, roundAcc, isDownEffect, clickEffect,
    isHeldEffect, isDraggedEffect, dragXYEffect, isDragHeldEffect, commitState,
    addTimer, clearTimer, emitIf, truthyI, sameTarget, upUpdater, resetClickUpdater,
    dragHoldResetUpdater, initMachine, initState, cbClicks, eOrigin, listenForMoveEvents,
    mcUp1, hkUp1, mcUp1Fired, hkUp1Reset, List.find?]

theorem stepDown_single (t : Nat) :
    stepInput cbSingle none t (Input.down eOrigin) initMachine = (mcDown t, []) := by
  simp [stepInput, runRounds, runRound, roundAcc, isDownEffect, clickEffect,
    isHeldEffect, isDraggedEffect, dragXYEffect, isDragHeldEffect, commitState,
    addTimer, clearTimer, emitIf, truthyI, sameTarget, upUpdater, resetClickUpdater,
    dragHoldResetUpdater, initMachine, initState, cbSingle, cbClicks, eOrigin,
    listenForMoveEvents, mcDown, hkDown]

theorem stepUp1_single (ta tb : Nat) :
    stepInput cbSingle none tb (Input.up eOrigin) (mcDown ta) =
      (mcUp1Immediate tb, [Emit.singleClick]) := by
  simp [stepInput, runRounds, runRound, roundAcc, isDownEffect, clickEffect,
    isHeldEffect, isDraggedEffect, dragXYEffect, isDragHeldEffect, commitState,
    addTimer, clearTimer, emitIf, truthyI, sameTarget, upUpdater, resetClickUpdater,
    dragHoldResetUpdater, initMachine, initState, cbSingle, cbClicks, eOrigin,
    listenForMoveEvents, mcDown, hkDown, mcUp1Immediate, hkUp1Reset, hkUp1]

/-! ### Canonical hold session (symbolic config and timestamps) -/

/-- Machine after a down at `t0` under `cbAll`: the `mouseHold` timer (id 0)
pends until `t0 + mouseHoldDuration`, move/up/leave listeners attached. -/
def mhDown (cfg : Option Config) (t0 : Nat) : Machine :=
  { initMachine with
    hook := hkDown t0
    prevHook := hkDown t0
    timers := [{ id := 0, key := TimerKey.mouseHold,
                 deadline := t0 + resolveMouseHoldDuration cfg, payload := some eOrigin }]
    nextTimerId := 1
    mouseHoldTimeoutRef := some 0
    moveListener := true
    upListener := true
    leaveListener := true
    eventTypes := some EvKind.mouse }

/-- Hook state once the hold timer has fired: `isHeld` true. -/
def hkHeld (t0 : Nat) : HookState :=
  { hkDown t0 with mouseHold := { isHeld := true, nativeEvent := some eOrigin } }

/-- Machine after the hold timer fires under `cbAll`: held, timer consumed,
move listener detached when `preventDragIfHeld` resolves true. -/
def mhHeld (cfg : Option Config) (t0 : Nat) : Machine :=
  { initMachine with
    hook := hkHeld t0
    prevHook := hkHeld t0
    nextTimerId := 1
    mouseHoldTimeoutRef := some 0
    moveListener := !resolvePreventDragIfHeld cfg
    upListener := true
    leaveListener := false
    eventTypes := some EvKind.mouse }

/-- Hook state after the up that ends a held session: everything reset but
the click count stays 0 (a held release is not a click). -/
def hkHeldUp (t2 : Nat) : HookState where
  mouseDown := { isDown := false, nativeEvent := some eOrigin, time := some t2 }
  mouseHold := { isHeld := false, nativeEvent := some eOrigin }
  mouseDrag := { isDragged := false, nativeEvent := some eOrigin, dragX := none, dragY := none }
  mouseDragHold := { isDragHeld := false, nativeEvent := some eOrigin }
  click := { count := 0, time := some t2, nativeEvent := some eOrigin }

/-- Machine after the up that ends a held session. -/
def mhHeldUp (t2 : Nat) : Machine :=
  { initMachine with
    hook := hkHeldUp t2
    prevHook := hkHeldUp t2
    nextTimerId := 1
    mouseHoldTimeoutRef := some 0
    eventTypes := some EvKind.mouse }

theorem stepDown_all (cfg : Option Config) (t0 : Nat) :
    stepInput cbAll cfg t0 (Input.down eOrigin) initMachine = (mhDown cfg t0, [Emit.mouseDown]) := by
  simp [stepInput, runRounds, runRound, roundAcc, isDownEffect, clickEffect,
    isHeldEffect, isDraggedEffect, dragXYEffect, isDragHeldEffect, commitState,
    addTimer, clearTimer, emitIf, truthyI, sameTarget, upUpdater, resetClickUpdater,
    dragHoldResetUpdater, initMachine, initState, cbAll, eOrigin, listenForMoveEvents,
    mhDown, hkDown]

theorem stepHoldFire_all (cfg : Option Config) (t0 t1 : Nat) :
    stepInput cbAll cfg t1 (Input.fire 0) (mhDown cfg t0) = (mhHeld cfg t0, [Emit.mouseHold]) := by
  by_cases hpd : resolvePreventDragIfHeld cfg = true
  · simp [stepInput, runRounds, runRound, roundAcc, isDownEffect, clickEffect,
      isHeldEffect, isDraggedEffect, dragXYEffect, isDragHeldEffect, commitState,
      addTimer, clearTimer, emitIf, truthyI, sameTarget, upUpdater, resetClickUpdater,
      dragHoldResetUpdater, initMachine, initState, cbAll, eOrigin, listenForMoveEvents,
      mhDown, hkDown, mhHeld, hkHeld, List.find?, hpd]
  · simp only [Bool.not_eq_true] at hpd
    simp [stepInput, runRounds, runRound, roundAcc, isDownEffect, clickEffect,
      isHeldEffect, isDraggedEffect, dragXYEffect, isDragHeldEffect, commitState,
      addTimer, clearTimer, emitIf, truthyI, sameTarget, upUpdater, resetClickUpdater,
      dragHoldResetUpdater, initMachine, initState, cbAll, eOrigin, listenForMoveEvents,
      mhDown, hkDown, mhHeld, hkHeld, List.find?, hpd]

theorem stepHeldUp_all (cfg : Option Config) (t0 t2 : Nat) :
    stepInput cbAll cfg t2 (Input.up eOrigin) (mhHeld cfg t0) =
      (mhHeldUp t2, [Emit.mouseUp, Emit.mouseHoldEnd]) := by
  simp [stepInput, runRounds, runRound, roundAcc, isDownEffect, clickEffect,
    isHeldEffect, isDraggedEffect, dragXYEffect, isDragHeldEffect, commitState,
    addTimer, clearTimer, emitIf, truthyI, sameTarget, upUpdater, resetClickUpdater,
    dragHoldResetUpdater, initMachine, initState, cbAll, eOrigin, listenForMoveEvents,
    mhHeld, hkHeld, hkDown, mhHeldUp, hkHeldUp]

/-- **C1** (counterexample).  A valid session — down at 0, the hold timer
fires at its 750 ms deadline (entering Held), then a move at 800 ms with
`preventDragIfHeld` at its default `false` — leaves the recognizer with
`isHeld` and `isDragged` simultaneously `true`: the claimed mutual exclusion
of Held and Dragging fails on `useMouseEvents` (the move never clears
`mouseHold.isHeld`; only the up event does). -/
theorem C1_counterexample :
    validFrom cbAll none 0 initMachine trHeldDrag = true ∧
    resolvePreventDragIfHeld none = false ∧
    (runTrace cbAll none initMachine trHeldDrag).1.hook.mouseHold.isHeld = true ∧
    (runTrace cbAll none initMachine trHeldDrag).1.hook.mouseDrag.isDragged = true := by
  decide

/-- **C1** (amended).  Held and Dragging are not mutually exclusive: a move
arriving after the hold timer has fired, with `preventDragIfHeld` false,
leaves the state both held and dragged until the session's up event (first
conjunct, witnessed by the concrete valid trace `trHeldDrag`).  The DragHeld
half of the claim does hold: along any valid input sequence from a fresh
recognizer, a step that raises `isDragHeld` can only happen from a state in
which `isDragged` is already true (second conjunct). -/
theorem C1_amended :
    (validFrom cbAll none 0 initMachine trHeldDrag = true ∧
     (runTrace cbAll none initMachine trHeldDrag).1.hook.mouseHold.isHeld = true ∧
     (runTrace cbAll none initMachine trHeldDrag).1.hook.mouseDrag.isDragged = true) ∧
    (∀ (cb : EventCallbacks) (cfg : Option Config) (t : Nat) (m : Machine)
        (t2 : Nat) (i : Input),
      Reachable cb cfg t m → t ≤ t2 → validInput t2 i m = true →
      (stepInput cb cfg t2 i m).1.hook.mouseDragHold.isDragHeld = true →
      m.hook.mouseDragHold.isDragHeld = false →
      m.hook.mouseDrag.isDragged = true) := by
  constructor
  · exact ⟨by decide, by decide, by decide⟩
  · intro cb cfg t m t2 i hr hle hv hpost hpre
    rcases (invB_entry_step cb cfg t2 i m (reachable_invB hr)).2 hpost with h | h
    · rw [hpre] at h
      cases h
    · exact h

/-- The machine after down(0 ms) and move(100 ms): mid-drag with the
drag-hold timer (id 1) pending at deadline 850 ms. -/
def mDrag : Machine :=
  (stepInput cbAll none 100 (Input.move eMoved)
    (stepInput cbAll none 0 (Input.down eOrigin) initMachine).1).1

theorem reach_mDrag : Reachable cbAll none 100 mDrag :=
  Reachable.step
    (Reachable.step Reachable.init (Nat.le_refl 0) (by decide))
    (Nat.zero_le 100) (by decide)

/-- **C1** (witness).  Instantiating the DragHeld half of `C1_amended` at the
concrete mid-drag machine `mDrag` and its pending drag-hold timer firing. -/
theorem C1_witness :
    (stepInput cbAll none 850 (Input.fire 1) mDrag).1.hook.mouseDragHold.isDragHeld = true ∧
    mDrag.hook.mouseDrag.isDragged = true :=
  ⟨by decide,
   C1_amended.2 cbAll none 100 mDrag 850 (Input.fire 1) reach_mDrag
     (by decide) (by decide) (by decide) (by decide)⟩

/-! ### C2 -/

/-- Down at the origin, up 10 ms later at a different position, with no move
event in between. -/
def trPosChangeUp : List (Nat × Input) :=
  [(0, Input.down eOrigin), (10, Input.up eMoved)]

/-- **C2** (code bug, evaluation at the failing input).  With a dragEnd
callback configured, `preventClickIfPosChange` resolves to `true`, and the
claim (and the flag's own comment in the source) says an up whose position
differs from the down must be treated as a drag-end, not a click.  But the
current `useMouseEvents` never reads the flag it computes: its up handler
tests only `isHeld`/`isDragged`/same-target.  On a session with no move and
an up at a different position the code emits `singleClick` (the up reached
the click aggregator) and no `dragEnd`. -/
theorem C2_failing_eval :
    resolvePreventClickIfPosChange none cbDragEnd.onDragEndCallback = true ∧
    validFrom cbDragEnd none 0 initMachine trPosChangeUp = true ∧
    (runTrace cbDragEnd none initMachine trPosChangeUp).2 = [Emit.singleClick] ∧
    Emit.dragEnd ∉ (runTrace cbDragEnd none initMachine trPosChangeUp).2 := by
  decide

/-! ### C7 -/

/-- **C7**.  A touch down event carrying more than one simultaneous touch
point is dropped: `onMouseDown` returns before its `setState`, so no session
starts — the hook state, the timers, the timeout refs and the listeners are
unchanged and no callback is invoked.  (The handler does cache the
touch event names in `eventTypes` before the guard, exactly as the source
does before `if(event.touches.length > 1) return`.) -/
theorem C7_multiTouchDropped (cb : EventCallbacks) (cfg : Option Config)
    (now : Nat) (m : Machine) (e : NativeEvent)
    (hk : e.kind = EvKind.touch) (ht : 1 < e.touches) :
    (stepInput cb cfg now (Input.down e) m).1.hook = m.hook ∧
    (stepInput cb cfg now (Input.down e) m).1.timers = m.timers ∧
    (stepInput cb cfg now (Input.down e) m).1.mouseHoldTimeoutRef = m.mouseHoldTimeoutRef ∧
    (stepInput cb cfg now (Input.down e) m).1.doubleClickTimoutRef = m.doubleClickTimoutRef ∧
    (stepInput cb cfg now (Input.down e) m).1.dragHoldTimeoutRef = m.dragHoldTimeoutRef ∧
    (stepInput cb cfg now (Input.down e) m).1.moveListener = m.moveListener ∧
    (stepInput cb cfg now (Input.down e) m).1.upListener = m.upListener ∧
    (stepInput cb cfg now (Input.down e) m).1.leaveListener = m.leaveListener ∧
    (stepInput cb cfg now (Input.down e) m).2 = [] := by
  by_cases hat : m.attached
  · have hstep : stepInput cb cfg now (Input.down e) m =
        ({ m with eventTypes := some e.kind }, []) := by
      simp only [stepInput, if_pos hat, if_pos (And.intro hk ht)]
    rw [hstep]
    exact ⟨rfl, rfl, rfl, rfl, rfl, rfl, rfl, rfl, rfl⟩
  · have hstep : stepInput cb cfg now (Input.down e) m = (m, []) := by
      simp only [stepInput, if_neg hat]
    rw [hstep]
    exact ⟨rfl, rfl, rfl, rfl, rfl, rfl, rfl, rfl, rfl⟩

/-- **C7** (witness): the two-finger touchstart `eMulti` on a fresh
recognizer. -/
theorem C7_witness :
    (stepInput cbAll none 0 (Input.down eMulti) initMachine).1.hook = initMachine.hook ∧
    (stepInput cbAll none 0 (Input.down eMulti) initMachine).2 = [] := by
  have h := C7_multiTouchDropped cbAll none 0 initMachine eMulti (by decide) (by decide)
  exact ⟨h.1, h.2.2.2.2.2.2.2.2⟩

/-! ### C8 -/

/-- **C8** (counterexample).  Explicitly supplied falsy option values do not
take precedence over the defaults, because the source resolves every option
with `(config && config.x) || default`: supplying
`preventClickIfPosChange: false` while a dragEnd callback is configured still
resolves to `true`, and supplying `doubleClickDuration: 0` resolves to 250. -/
theorem C8_counterexample :
    resolvePreventClickIfPosChange (some { preventClickIfPosChange := some false }) true
      = true ∧
    resolveDoubleClickDuration (some { doubleClickDuration := some 0 }) = 250 := by
  decide

/-- **C8** (amended).  The defaults are as claimed — 250 ms / 750 ms / 750 ms
/ false / (`true` iff a dragEnd callback is supplied) — both when no config
object is passed and when the individual option is absent; and an explicitly
supplied option value takes precedence exactly when it is truthy: a nonzero
duration or a supplied `true` flag wins, while a supplied `0` or `false`
falls back to the default (in particular `preventDragIfHeld`, whose default
is already false, is the one flag where a supplied `false` coincides with
the resolved value). -/
theorem C8_amended :
    (resolveDoubleClickDuration none = 250 ∧
     resolveMouseHoldDuration none = 750 ∧
     resolveDragHoldDuration none = 750 ∧
     resolvePreventDragIfHeld none = false ∧
     (∀ de : Bool, resolvePreventClickIfPosChange none de = de)) ∧
    ((∀ c : Config, c.doubleClickDuration = none →
        resolveDoubleClickDuration (some c) = 250) ∧
     (∀ c : Config, c.mouseHoldDuration = none →
        resolveMouseHoldDuration (some c) = 750) ∧
     (∀ c : Config, c.dragHoldDuration = none →
        resolveDragHoldDuration (some c) = 750) ∧
     (∀ c : Config, c.preventDragIfHeld = none →
        resolvePreventDragIfHeld (some c) = false) ∧
     (∀ (c : Config) (de : Bool), c.preventClickIfPosChange = none →
        resolvePreventClickIfPosChange (some c) de = de)) ∧
    ((∀ (c : Config) (n : Nat), c.doubleClickDuration = some n → n ≠ 0 →
        resolveDoubleClickDuration (some c) = n) ∧
     (∀ (c : Config) (n : Nat), c.mouseHoldDuration = some n → n ≠ 0 →
        resolveMouseHoldDuration (some c) = n) ∧
     (∀ (c : Config) (n : Nat), c.dragHoldDuration = some n → n ≠ 0 →
        resolveDragHoldDuration (some c) = n) ∧
     (∀ (c : Config) (b : Bool), c.preventDragIfHeld = some b →
        resolvePreventDragIfHeld (some c) = b) ∧
     (∀ (c : Config) (de : Bool), c.preventClickIfPosChange = some true →
        resolvePreventClickIfPosChange (some c) de = true)) ∧
    ((∀ c : Config, c.doubleClickDuration = some 0 →
        resolveDoubleClickDuration (some c) = 250) ∧
     (∀ c : Config, c.mouseHoldDuration = some 0 →
        resolveMouseHoldDuration (some c) = 750) ∧
     (∀ c : Config, c.dragHoldDuration = some 0 →
        resolveDragHoldDuration (some c) = 750) ∧
     (∀ (c : Config) (de : Bool), c.preventClickIfPosChange = some false →
        resolvePreventClickIfPosChange (some c) de = de)) := by
  refine ⟨by decide, ⟨?_, ?_, ?_, ?_, ?_⟩,
    ⟨?_, ?_, ?_, ?_, ?_⟩, ⟨?_, ?_, ?_, ?_⟩⟩
  · intro c h; simp [resolveDoubleClickDuration, h]
  · intro c h; simp [resolveMouseHoldDuration, h]
  · intro c h; simp [resolveDragHoldDuration, h]
  · intro c h; simp [resolvePreventDragIfHeld, h]
  · intro c de h; simp [resolvePreventClickIfPosChange, h]
  · intro c n h hn; simp [resolveDoubleClickDuration, h, hn]
  · intro c n h hn; simp [resolveMouseHoldDuration, h, hn]
  · intro c n h hn; simp [resolveDragHoldDuration, h, hn]
  · intro c b h; simp [resolvePreventDragIfHeld, h]
  · intro c de h; simp [resolvePreventClickIfPosChange, h]
  · intro c h; simp [resolveDoubleClickDuration, h]
  · intro c h; simp [resolveMouseHoldDuration, h]
  · intro c h; simp [resolveDragHoldDuration, h]
  · intro c de h; simp [resolvePreventClickIfPosChange, h]

/-- **C8** (witness): concrete supplied values — a truthy duration wins, a
supplied `false` for `preventClickIfPosChange` falls back to the
dragEnd-derived default. -/
theorem C8_witness :
    resolveDoubleClickDuration (some { doubleClickDuration := some 100 }) = 100 ∧
    resolvePreventClickIfPosChange (some { preventClickIfPosChange := some false }) false
      = false :=
  ⟨C8_amended.2.2.1.1 { doubleClickDuration := some 100 } 100 rfl (by decide),
   C8_amended.2.2.2.2.2.2 { preventClickIfPosChange := some false } false rfl⟩

/-! ### C3 -/

/-- Modelled from the spec: the repository's `useMouseEvents` has no teardown
path — its effects return no cleanup functions and no detach function appears
in `src` — so the lifecycle surface of spec §6 ("detach cancels all pending
timers and tears down state (idempotent)") is modelled from the spec's words:
cancel every pending timer under every key, drop the document/target
listeners, reset the state, and stop listening for new sessions. -/
def detach (m : Machine) : Machine :=
  { m with
    hook := initState
    prevHook := initState
    timers := []
    mouseHoldTimeoutRef := none
    doubleClickTimoutRef := none
    dragHoldTimeoutRef := none
    moveListener := false
    upListener := false
    leaveListener := false
    attached := false }

/-- A torn-down recognizer ignores every input: no state change, no
emission. -/
theorem stepInput_detached (cb : EventCallbacks) (cfg : Option Config)
    (t : Nat) (i : Input) (m : Machine)
    (h1 : m.attached = false) (h2 : m.moveListener = false)
    (h3 : m.upListener = false) (h4 : m.leaveListener = false)
    (h5 : m.timers = []) : stepInput cb cfg t i m = (m, []) := by
  cases i with
  | down e => simp [stepInput, h1]
  | move e => simp [stepInput, h2]
  | up e => simp [stepInput, h3]
  | leave e => simp [stepInput, h4]
  | fire id => simp [stepInput, h5]

/-- **C3**.  Detaching cancels every pending timer under every key before it
returns (`timers = []` and all three refs cleared), and afterwards no
recognizer callback of any kind fires: processing any further input
sequence — native events or late timer deliveries — emits nothing.  Detach
is idempotent.  (`detach` is modelled from the spec; see its doc comment.) -/
theorem C3_detachCancelsAll (cb : EventCallbacks) (cfg : Option Config)
    (m : Machine) (tr : List (Nat × Input)) :
    (detach m).timers = [] ∧
    (detach m).mouseHoldTimeoutRef = none ∧
    (detach m).doubleClickTimoutRef = none ∧
    (detach m).dragHoldTimeoutRef = none ∧
    (runTrace cb cfg (detach m) tr).2 = [] ∧
    detach (detach m) = detach m := by
  refine ⟨rfl, rfl, rfl, rfl, ?_, rfl⟩
  have key : ∀ (tr2 : List (Nat × Input)) (mm : Machine), mm.attached = false →
      mm.moveListener = false → mm.upListener = false → mm.leaveListener = false →
      mm.timers = [] → (runTrace cb cfg mm tr2).2 = [] := by
    intro tr2
    induction tr2 with
    | nil => intro mm _ _ _ _ _; rfl
    | cons hd tl ih =>
      intro mm h1 h2 h3 h4 h5
      obtain ⟨t, i⟩ := hd
      simp only [runTrace, stepInput_detached cb cfg t i mm h1 h2 h3 h4 h5,
        List.nil_append]
      exact ih mm h1 h2 h3 h4 h5
  exact key tr (detach m) rfl rfl rfl rfl rfl


/-- A stale double click: downs/ups at 0/10/20/300; the second up comes
290 ms after the first click, beyond the 250 ms default window. -/
def trStale : List (Nat × Input) :=
  [(0, Input.down eOrigin), (10, Input.up eOrigin),
   (20, Input.down eOrigin), (300, Input.up eOrigin)]

/-- C4 counterexample: on a stale second click the source does not reset the
count to 1 and does not restart the wait — the count becomes 2 and the timer
pending since the first click (deadline 260) is left untouched. -/
theorem C4_counterexample :
    validFrom cbClicks none 0 initMachine trStale = true ∧
    (runTrace cbClicks none initMachine trStale).1.hook.click.count = 2 ∧
    (runTrace cbClicks none initMachine trStale).1.timers =
      [{ id := 0, key := TimerKey.doubleClick, deadline := 260, payload := some eOrigin }] ∧
    (runTrace cbClicks none initMachine trStale).2 = [] := by
  refine ⟨by decide, by decide, by decide, by decide⟩

/-- C4 (amended): for every second qualifying click whose elapsed time since
the previous qualifying click exceeds doubleClickDuration (a stale second
click), the click aggregator does not start a fresh sequence: the count
becomes 2 and the doubleClick timer already pending since the first click is
neither cleared nor restarted; when that stale timer fires, a single
singleClick is emitted and the count is reset to 0. -/
theorem C4_amended (ta tb tc td te : Nat)
    (h1 : ta ≤ tb) (h2 : tb ≤ tc) (h3 : tc ≤ td) (h4 : td ≤ te)
    (hstale : 250 < td - tb) :
    validFrom cbClicks none 0 initMachine
      [(ta, Input.down eOrigin), (tb, Input.up eOrigin),
       (tc, Input.down eOrigin), (td, Input.up eOrigin), (te, Input.fire 0)] = true ∧
    (runTrace cbClicks none initMachine
      [(ta, Input.down eOrigin), (tb, Input.up eOrigin),
       (tc, Input.down eOrigin), (td, Input.up eOrigin)]).1.hook.click.count = 2 ∧
    (runTrace cbClicks none initMachine
      [(ta, Input.down eOrigin), (tb, Input.up eOrigin),
       (tc, Input.down eOrigin), (td, Input.up eOrigin)]).1.timers =
      [{ id := 0, key := TimerKey.doubleClick, deadline := tb + 250, payload := some eOrigin }] ∧
    (runTrace cbClicks none initMachine
      [(ta, Input.down eOrigin), (tb, Input.up eOrigin),
       (tc, Input.down eOrigin), (td, Input.up eOrigin), (te, Input.fire 0)]).2 =
      [Emit.singleClick] ∧
    (runTrace cbClicks none initMachine
      [(ta, Input.down eOrigin), (tb, Input.up eOrigin),
       (tc, Input.down eOrigin), (td, Input.up eOrigin), (te, Input.fire 0)]).1.hook.click.count = 0 := by
  have hw : ¬(td - tb ≤ 250) := by omega
  refine ⟨?_, ?_, ?_, ?_, ?_⟩
  · simp only [validFrom, stepDown_clicks, stepUp1_clicks, stepDown2_clicks,
      stepStale_clicks tb tc td hw, stepFiredStale_clicks]
    simp [validInput, mcStale, mcUp1, List.find?]
    omega
  · simp only [runTrace, stepDown_clicks, stepUp1_clicks, stepDown2_clicks,
      stepStale_clicks tb tc td hw]
    simp [mcStale, hkStale]
  · simp only [runTrace, stepDown_clicks, stepUp1_clicks, stepDown2_clicks,
      stepStale_clicks tb tc td hw]
    simp [mcStale, mcUp1]
  · simp only [runTrace, stepDown_clicks, stepUp1_clicks, stepDown2_clicks,
      stepStale_clicks tb tc td hw, stepFiredStale_clicks]
    simp
  · simp only [runTrace, stepDown_clicks, stepUp1_clicks, stepDown2_clicks,
      stepStale_clicks tb tc td hw, stepFiredStale_clicks]
    simp [mcFired, hkFired, hkStale]

/-- C4 witness: the amended behavior at times 0, 10, 20, 300, 400. -/
theorem C4_witness :
    validFrom cbClicks none 0 initMachine
      [(0, Input.down eOrigin), (10, Input.up eOrigin),
       (20, Input.down eOrigin), (300, Input.up eOrigin), (400, Input.fire 0)] = true ∧
    (runTrace cbClicks none initMachine
      [(0, Input.down eOrigin), (10, Input.up eOrigin),
       (20, Input.down eOrigin), (300, Input.up eOrigin)]).1.hook.click.count = 2 ∧
    (runTrace cbClicks none initMachine
      [(0, Input.down eOrigin), (10, Input.up eOrigin),
       (20, Input.down eOrigin), (300, Input.up eOrigin)]).1.timers =
      [{ id := 0, key := TimerKey.doubleClick, deadline := 10 + 250, payload := some eOrigin }] ∧
    (runTrace cbClicks none initMachine
      [(0, Input.down eOrigin), (10, Input.up eOrigin),
       (20, Input.down eOrigin), (300, Input.up eOrigin), (400, Input.fire 0)]).2 =
      [Emit.singleClick] ∧
    (runTrace cbClicks none initMachine
      [(0, Input.down eOrigin), (10, Input.up eOrigin),
       (20, Input.down eOrigin), (300, Input.up eOrigin), (400, Input.fire 0)]).1.hook.click.count = 0 :=
  C4_amended 0 10 20 300 400 (by decide) (by decide) (by decide) (by decide) (by decide)

/-- C5: a qualifying click that makes the count 1.  With a double-click
callback configured (`cbClicks`), the doubleClick timer is started for
doubleClickDuration and nothing is emitted yet; when it fires, exactly one
singleClick is emitted and the count resets to 0.  Without a double-click
callback (`cbSingle`), singleClick is emitted immediately, no timer is
started, and the count resets to 0.  (Default configuration, so
doubleClickDuration resolves to 250.) -/
theorem C5_firstClickResolution (t0 t1 t2 : Nat)
    (h01 : t0 ≤ t1) (h12 : t1 + resolveDoubleClickDuration none ≤ t2) :
    validFrom cbClicks none 0 initMachine
      [(t0, Input.down eOrigin), (t1, Input.up eOrigin), (t2, Input.fire 0)] = true ∧
    (runTrace cbClicks none initMachine
      [(t0, Input.down eOrigin), (t1, Input.up eOrigin)]).1.hook.click.count = 1 ∧
    (runTrace cbClicks none initMachine
      [(t0, Input.down eOrigin), (t1, Input.up eOrigin)]).1.timers =
      [{ id := 0, key := TimerKey.doubleClick,
         deadline := t1 + resolveDoubleClickDuration none, payload := some eOrigin }] ∧
    (runTrace cbClicks none initMachine
      [(t0, Input.down eOrigin), (t1, Input.up eOrigin)]).2 = [] ∧
    (runTrace cbClicks none initMachine
      [(t0, Input.down eOrigin), (t1, Input.up eOrigin), (t2, Input.fire 0)]).2 =
      [Emit.singleClick] ∧
    (runTrace cbClicks none initMachine
      [(t0, Input.down eOrigin), (t1, Input.up eOrigin), (t2, Input.fire 0)]).1.hook.click.count = 0 ∧
    (runTrace cbSingle none initMachine
      [(t0, Input.down eOrigin), (t1, Input.up eOrigin)]).2 = [Emit.singleClick] ∧
    (runTrace cbSingle none initMachine
      [(t0, Input.down eOrigin), (t1, Input.up eOrigin)]).1.timers = [] ∧
    (runTrace cbSingle none initMachine
      [(t0, Input.down eOrigin), (t1, Input.up eOrigin)]).1.hook.click.count = 0 := by
  refine ⟨?_, ?_, ?_, ?_, ?_, ?_, ?_, ?_, ?_⟩
  · simp only [validFrom, stepDown_clicks, stepUp1_clicks, stepFired1_clicks]
    simp only [resolveDoubleClickDuration] at h12
    simp [validInput, mcUp1, List.find?]
    omega
  · simp only [runTrace, stepDown_clicks, stepUp1_clicks]
    simp [mcUp1, hkUp1]
  · simp only [runTrace, stepDown_clicks, stepUp1_clicks]
    simp [mcUp1, resolveDoubleClickDuration]
  · simp only [runTrace, stepDown_clicks, stepUp1_clicks]
    simp
  · simp only [runTrace, stepDown_clicks, stepUp1_clicks, stepFired1_clicks]
    simp
  · simp only [runTrace, stepDown_clicks, stepUp1_clicks, stepFired1_clicks]
    simp [mcUp1Fired, hkUp1Reset, hkUp1]
  · simp only [runTrace, stepDown_single, stepUp1_single]
    simp
  · simp only [runTrace, stepDown_single, stepUp1_single]
    simp [mcUp1Immediate, initMachine]
  · simp only [runTrace, stepDown_single, stepUp1_single]
    simp [mcUp1Immediate, hkUp1Reset, hkUp1]

/-- C5 witness: the first-click resolution at times 0, 10, 300. -/
theorem C5_witness :
    validFrom cbClicks none 0 initMachine
      [(0, Input.down eOrigin), (10, Input.up eOrigin), (300, Input.fire 0)] = true ∧
    (runTrace cbClicks none initMachine
      [(0, Input.down eOrigin), (10, Input.up eOrigin)]).1.hook.click.count = 1 ∧
    (runTrace cbClicks none initMachine
      [(0, Input.down eOrigin), (10, Input.up eOrigin)]).1.timers =
      [{ id := 0, key := TimerKey.doubleClick,
         deadline := 10 + resolveDoubleClickDuration none, payload := some eOrigin }] ∧
    (runTrace cbClicks none initMachine
      [(0, Input.down eOrigin), (10, Input.up eOrigin)]).2 = [] ∧
    (runTrace cbClicks none initMachine
      [(0, Input.down eOrigin), (10, Input.up eOrigin), (300, Input.fire 0)]).2 =
      [Emit.singleClick] ∧
    (runTrace cbClicks none initMachine
      [(0, Input.down eOrigin), (10, Input.up eOrigin), (300, Input.fire 0)]).1.hook.click.count = 0 ∧
    (runTrace cbSingle none initMachine
      [(0, Input.down eOrigin), (10, Input.up eOrigin)]).2 = [Emit.singleClick] ∧
    (runTrace cbSingle none initMachine
      [(0, Input.down eOrigin), (10, Input.up eOrigin)]).1.timers = [] ∧
    (runTrace cbSingle none initMachine
      [(0, Input.down eOrigin), (10, Input.up eOrigin)]).1.hook.click.count = 0 :=
  C5_firstClickResolution 0 10 300 (by decide) (by decide)

/-- C6: a down held stationary for at least the resolved mouseHoldDuration
(the hold timer fires before the up): mouseHold is emitted before the up is
processed, the up emits mouseHoldEnd, and the click count stays 0.  Universal
over the configuration. -/
theorem C6_holdSession (cfg : Option Config) (t0 t1 t2 : Nat)
    (h01 : t0 + resolveMouseHoldDuration cfg ≤ t1) (h12 : t1 ≤ t2) :
    validFrom cbAll cfg 0 initMachine
      [(t0, Input.down eOrigin), (t1, Input.fire 0), (t2, Input.up eOrigin)] = true ∧
    runTrace cbAll cfg initMachine
      [(t0, Input.down eOrigin), (t1, Input.fire 0), (t2, Input.up eOrigin)] =
      (mhHeldUp t2, [Emit.mouseDown, Emit.mouseHold, Emit.mouseUp, Emit.mouseHoldEnd]) ∧
    (mhHeldUp t2).hook.click.count = 0 := by
  refine ⟨?_, ?_, rfl⟩
  · simp only [validFrom, stepDown_all, stepHoldFire_all, stepHeldUp_all]
    simp [validInput, mhDown, mhHeld, List.find?]
    omega
  · simp only [runTrace, stepDown_all, stepHoldFire_all, stepHeldUp_all]
    simp

/-- C6 witness: a held session at default configuration, times 0, 750, 800. -/
theorem C6_witness :
    validFrom cbAll none 0 initMachine
      [(0, Input.down eOrigin), (750, Input.fire 0), (800, Input.up eOrigin)] = true ∧
    runTrace cbAll none initMachine
      [(0, Input.down eOrigin), (750, Input.fire 0), (800, Input.up eOrigin)] =
      (mhHeldUp 800, [Emit.mouseDown, Emit.mouseHold, Emit.mouseUp, Emit.mouseHoldEnd]) ∧
    (mhHeldUp 800).hook.click.count = 0 :=
  C6_holdSession none 0 750 800 (by decide) (by decide)

end MouseEvents
